import Mathlib

/-!
Verification development for the SimpOs interactive shell
(`simp_os/` package: `config.py`, `security.py`, `auth.py`, `ai.py`,
`command_parser.py`, `kernel.py`).

The Python source is shallowly embedded: every definition below is a direct
transcription of the corresponding Python function.  Interactive input
(`input()`, the arrow-key menu, external subprocess results) is modelled as a
finite script of events consumed from the front of a list; terminal output
(`print_colored`, `type_out`) is modelled as an append-only list of strings
(colour codes, typing delays and `input()` prompt texts are presentation
details and are not recorded).  The persisted JSON configuration file is
modelled as a key/value dictionary (`ConfigFile.dict`), with `missing` for an
absent file and `corrupt` for an unparsable one.
-/

namespace SimpOs

/-! ### Python string primitives

The program's strings are ASCII; the Python `str` methods it uses are
reimplemented here over `List Char` so that every definition evaluates inside
the kernel (`String.toLower`, `String.trim`, `String.split` and `String.toInt?`
do not reduce there). -/

/-- ASCII `str.lower()` on one character: shift an upper-case code point by
32, leave everything else alone. -/
def lowerChar (c : Char) : Char :=
  let n := c.val.toNat
  if 65 ≤ n ∧ n ≤ 90 then Char.ofNat (n + 32) else c

/-- Python `str.lower()`. -/
def pyLower (s : String) : String := ⟨s.data.map lowerChar⟩

/-- The whitespace characters recognised by `str.strip()` / `str.split()`. -/
def isSpaceChar (c : Char) : Bool :=
  c == ' ' || c == '\t' || c == '\n' || c == '\r' || c == '\x0b' || c == '\x0c'

/-- Python `str.strip()`: drop leading and trailing whitespace. -/
def pyStrip (s : String) : String :=
  ⟨((s.data.dropWhile isSpaceChar).reverse.dropWhile isSpaceChar).reverse⟩

/-- Worker for `str.split()`: `cur` is the current word, reversed. -/
def wordsCore : List Char → List Char → List String
  | [], cur => if cur = [] then [] else [⟨cur.reverse⟩]
  | c :: cs, cur =>
    if isSpaceChar c then
      if cur = [] then wordsCore cs [] else ⟨cur.reverse⟩ :: wordsCore cs []
    else wordsCore cs (c :: cur)

/-- Python `str.split()` (no argument): split on whitespace runs, dropping empties. -/
def splitWs (s : String) : List String := wordsCore s.data []

/-- Is `sub` a contiguous sublist of `l`? -/
def isSubList (sub : List Char) : List Char → Bool
  | [] => sub.isEmpty
  | c :: cs => sub.isPrefixOf (c :: cs) || isSubList sub cs

/-- Python `sub in s` substring test. -/
def containsSub (s sub : String) : Bool := isSubList sub.data s.data

/-- Python `name.startswith(".")`. -/
def startsWithDot (s : String) : Bool :=
  match s.data with
  | '.' :: _ => true
  | _ => false

/-- Decimal digit value, from the code point. -/
def digitVal (c : Char) : Option Nat :=
  let n := c.val.toNat
  if 48 ≤ n ∧ n ≤ 57 then some (n - 48) else none

/-- Digit-string to `Nat` (`none` on empty input or a non-digit). -/
def parseNat (l : List Char) : Option Nat :=
  match l with
  | [] => none
  | _ =>
    l.foldl (fun acc c =>
      match acc, digitVal c with
      | some n, some d => some (n * 10 + d)
      | _, _ => none) (some 0)

/-- Python `int(s)` on an already-stripped string. -/
def pyInt (s : String) : Option Int :=
  match s.data with
  | '-' :: ds => (parseNat ds).map (fun n => -(n : Int))
  | '+' :: ds => (parseNat ds).map (fun n => (n : Int))
  | ds => (parseNat ds).map (fun n => (n : Int))

/-- Python truthiness of an optional string: `None` and `""` are falsy. -/
def optTruthy : Option String → Bool
  | none => false
  | some s => !(s == "")

/-- Python `s or default` for a string value: empty string falls back. -/
def strOr (s d : String) : String := if s == "" then d else s

/-- Python `opt or default` for an optional string value. -/
def optStrOr (o : Option String) (d : String) : String :=
  match o with
  | none => d
  | some s => strOr s d

/-- Python `str(b)` for a boolean. -/
def pyBool (b : Bool) : String := if b then "True" else "False"

/-- JSON values that occur in `simp_config.json` (written by `save_config`). -/
inductive Json where
  | str (s : String)
  | bool (b : Bool)
  | null
deriving DecidableEq, Repr

/-- Python truthiness of a JSON value (`bool(...)` coercion in `load_config`). -/
def Json.truthy : Json → Bool
  | .str s => !(s == "")
  | .bool b => b
  | .null => false

/-- The persisted configuration file.  `dict` is a parsed JSON object
(association list, first binding wins on lookup, as for a Python dict). -/
inductive ConfigFile where
  | missing
  | corrupt
  | dict (d : List (String × Json))
deriving DecidableEq, Repr

/-- Python `config.py` dataclass `SimpConfig`, with its field defaults. -/
structure SimpConfig where
  admin_code : String := "changeme-admin"
  ai_mode : String := "local"
  api_key : Option String := none
  allow_online_ai : Bool := false
  update_repo_url : Option String := none
  owner_name : Option String := none
  first_run_completed : Bool := false
deriving DecidableEq, Repr

/-- The documented default configuration (`SimpConfig()` in Python). -/
def defaultConfig : SimpConfig := {}

/-- Encode an optional string as JSON (`asdict` turns `None` into `null`). -/
def optStrJson : Option String → Json
  | none => .null
  | some s => .str s

/-- Python `dataclasses.asdict(cfg)`, in field-declaration order, as written by
`save_config` into `simp_config.json`. -/
def configToDict (c : SimpConfig) : List (String × Json) :=
  [ ("admin_code", .str c.admin_code)
  , ("ai_mode", .str c.ai_mode)
  , ("api_key", optStrJson c.api_key)
  , ("allow_online_ai", .bool c.allow_online_ai)
  , ("update_repo_url", optStrJson c.update_repo_url)
  , ("owner_name", optStrJson c.owner_name)
  , ("first_run_completed", .bool c.first_run_completed) ]

/-- Python `data.get(k)` on a parsed JSON object. -/
def dictGet (d : List (String × Json)) (k : String) : Option Json :=
  (d.find? (fun p => p.1 == k)).map (fun p => p.2)

/-- Python `data.get(k, default)` read into a string field.  (A present value of a
non-string JSON shape cannot be represented in the typed record and is mapped
to the default; `save_config` only ever writes strings here, and no claim
exercises an ill-typed hand-edited file.) -/
def dictGetStrD (d : List (String × Json)) (k : String) (dflt : String) : String :=
  match dictGet d k with
  | some (.str s) => s
  | some _ => dflt
  | none => dflt

/-- Python `data.get(k)` read into an optional string field (absent and `null` both
become `None`). -/
def dictGetOptStr (d : List (String × Json)) (k : String) : Option String :=
  match dictGet d k with
  | some (.str s) => some s
  | _ => none

/-- Python `bool(data.get(k, False))` read into a boolean field. -/
def dictGetBool (d : List (String × Json)) (k : String) : Bool :=
  match dictGet d k with
  | some j => j.truthy
  | none => false

/-- The `SimpConfig(...)` constructor call at the end of `load_config`. -/
def configOfDict (d : List (String × Json)) : SimpConfig :=
  { admin_code := dictGetStrD d "admin_code" "changeme-admin"
  , ai_mode := dictGetStrD d "ai_mode" "local"
  , api_key := dictGetOptStr d "api_key"
  , allow_online_ai := dictGetBool d "allow_online_ai"
  , update_repo_url := dictGetOptStr d "update_repo_url"
  , owner_name := dictGetOptStr d "owner_name"
  , first_run_completed := dictGetBool d "first_run_completed" }

/-- Python `config.py` `save_config`: overwrite the file with the JSON dump of `cfg`. -/
def save_config (c : SimpConfig) : ConfigFile :=
  .dict (configToDict c)

/-- Python `config.py` `load_config`: returns the loaded record together with the
file as it stands afterwards (a missing or unparsable file is rewritten with
the defaults; a parsable file is left untouched). -/
def load_config : ConfigFile → SimpConfig × ConfigFile
  | .missing => (defaultConfig, save_config defaultConfig)
  | .corrupt => (defaultConfig, save_config defaultConfig)
  | .dict d => (configOfDict d, .dict d)

theorem config_roundtrip (c : SimpConfig) :
    load_config (save_config c) = (c, save_config c) := by
  cases c with
  | mk a m k al u o f =>
    cases k <;> cases u <;> cases o <;> rfl

/-! ## Data model: users, security log, AI status, events, machine state -/

/-- Python `auth.py` dataclass `User`. -/
structure User where
  username : String
  is_admin : Bool := false
deriving DecidableEq, Repr

/-- Python `security.py` dataclass `SecurityLogEntry`.  Timestamps come from a
monotone logical clock (the source formats `datetime.utcnow()`; wall-clock
text is irrelevant to every claim, chronological order is kept). -/
structure SecurityLogEntry where
  timestamp : String
  user : String
  event : String
deriving DecidableEq, Repr

/-- Python `ai.py` dataclass `AiStatus`. -/
structure AiStatus where
  mode : String
  last_action : Option String := none
  online_available : Bool := false
deriving DecidableEq, Repr

/-- One event of the environment script:
`line` is a value returned by `input()`, `menu` is the index chosen in the
arrow-key `select_menu` (or `none` on cancel), `proc` is the exit status of a
`subprocess.run(..., check=True)` call (`true` = exit 0), `procOut` is the
decoded output of a `subprocess.check_output` call (`none` = non-zero exit). -/
inductive Ev where
  | line (s : String)
  | menu (c : Option Nat)
  | proc (ok : Bool)
  | procOut (r : Option String)
deriving DecidableEq, Repr

/-- The whole machine state: the in-memory `SimpConfig` record, the persisted
file, the `SecurityManager` fields, the `AuthManager.current_user`, the
`SimpAI.status`, a logical clock for log timestamps, plus the static parts of
the environment (uptime text, whether the installation is a git clone, whether
deleting the config file fails with `OSError`, the visible file names of the
`apps` directory), the remaining input script and the output transcript. -/
structure St where
  cfg : SimpConfig
  file : ConfigFile
  failed_logins : Nat := 0
  sec_logs : List SecurityLogEntry := []
  user : Option User := none
  aiStatus : AiStatus
  clock : Nat := 0
  uptime : String := "00:00:00"
  gitClone : Bool := false
  fsFailDelete : Bool := false
  appsFiles : List String := []
  events : List Ev
  output : List String := []
deriving DecidableEq, Repr

/-- Python `print_colored`: append one line to the transcript. -/
def emit (s : String) (st : St) : St := { st with output := st.output ++ [s] }

/-- Append several lines to the transcript. -/
def emits (l : List String) (st : St) : St := { st with output := st.output ++ l }

/-- Python `input()`: consume the next scripted line.  `none` models `EOFError`
(or a script that supplies the wrong kind of event). -/
def readLine (st : St) : Option (String × St) :=
  match st.events with
  | .line s :: rest => some (s, { st with events := rest })
  | _ => none

/-- Python `select_menu`: consume the next scripted menu choice. -/
def readMenu (st : St) : Option (Option Nat × St) :=
  match st.events with
  | .menu c :: rest => some (c, { st with events := rest })
  | _ => none

/-- Python `subprocess.run(..., check=True)`: consume the scripted exit status. -/
def readProc (st : St) : Option (Bool × St) :=
  match st.events with
  | .proc ok :: rest => some (ok, { st with events := rest })
  | _ => none

/-- Python `subprocess.check_output`: consume the scripted output. -/
def readProcOut (st : St) : Option (Option String × St) :=
  match st.events with
  | .procOut r :: rest => some (r, { st with events := rest })
  | _ => none

/-- Result of a computation that may raise the reboot signal
(`SystemExit("REBOOT")`) or die on an exhausted input script. -/
inductive Res (α : Type) where
  | ok (a : α) (s : St)
  | reboot (s : St)
  | eof
deriving Repr, DecidableEq

/-! ## `security.py` -/

/-- Python `SecurityManager.log`. -/
def sec_log (u e : String) (st : St) : St :=
  { st with
    sec_logs := st.sec_logs ++ [⟨toString st.clock, u, e⟩]
    clock := st.clock + 1 }

/-- Python `SecurityManager.record_failed_login`. -/
def record_failed_login (u : String) (st : St) : St :=
  let st := { st with failed_logins := st.failed_logins + 1 }
  let st := sec_log u "failed_login" st
  emit ("[SECURITY] Failed login attempts: " ++ toString st.failed_logins) st

/-- Python `SecurityManager.show_logs`. -/
def show_logs (st : St) : St :=
  if st.sec_logs = [] then
    emit "[SECURITY] No logs yet." st
  else
    emits ("--- Security logs ---" ::
      st.sec_logs.map (fun e =>
        e.timestamp ++ " | user=" ++ e.user ++ " | " ++ e.event)) st

/-! ## `auth.py` -/

/-- Python `AuthManager.require_admin`. -/
def require_admin (st : St) : Bool × St :=
  match st.user with
  | some u =>
      if u.is_admin then (true, st)
      else (false, emit "ACCESS DENIED – ADMIN CODE REQUIRED" st)
  | none => (false, emit "ACCESS DENIED – ADMIN CODE REQUIRED" st)

/-- Python `AuthManager.login`: returns `some (none, st)` when the attempt failed
(the caller retries), `some (some u, st)` on success, `none` on `EOFError`. -/
def login (st : St) : Option (Option User × St) :=
  let st := emit "Login to SimpOs" st
  match readLine st with
  | none => none
  | some (uname, st) =>
    let username := strOr (pyStrip uname) "guest"
    let is_admin := pyLower username == "admin"
    if is_admin then
      match readLine st with
      | none => none
      | some (code, st) =>
        if pyStrip code ≠ st.cfg.admin_code then
          let st := emit "Invalid admin code." st
          let st := record_failed_login username st
          some (none, st)
        else
          let st := { st with user := some ⟨"admin", true⟩ }
          let st := sec_log "admin" "admin_login" st
          some (some ⟨"admin", true⟩, st)
    else
      let st := { st with user := some ⟨username, false⟩ }
      let st := sec_log username "user_login" st
      some (some ⟨username, false⟩, st)

/-! ## `ai.py` -/

/-- Python `SimpAI.show_status`. -/
def show_status (st : St) : St :=
  emits
    [ "--- SimpAI status ---"
    , "Mode          : " ++ st.aiStatus.mode
    , "Online allowed: " ++ pyBool st.cfg.allow_online_ai ++
        " (api_key=" ++ (if optTruthy st.cfg.api_key then "set" else "missing") ++ ")"
    , "Last action   : " ++ (st.aiStatus.last_action.getD "-") ] st

/-- Python `SimpAI.set_mode`. -/
def set_mode (mode : String) (st : St) : St :=
  if ¬(mode = "local" ∨ mode = "online") then
    emit "Unknown AI mode. Use 'local' or 'online'." st
  else if mode = "online" ∧ ¬(st.cfg.allow_online_ai ∧ optTruthy st.cfg.api_key) then
    emit "Online mode not available. Admin must enable it and set API key." st
  else
    let cfg := { st.cfg with ai_mode := mode }
    let st := { st with
      cfg := cfg
      file := save_config cfg
      aiStatus := { st.aiStatus with
        mode := mode
        last_action := some ("Switched mode to " ++ mode) } }
    emit ("SimpAI mode set to " ++ mode ++ ".") st

/-- Python `SimpAI._handle_local`. -/
def handle_local (question : String) (st : St) : St :=
  let q := pyLower question
  let answer :=
    if containsSub q "help" ∧ containsSub q "command" then
      "In SimpOs you can type 'help' to list commands. " ++
      "Use 'status' for system info and 'ai status' for AI info."
    else if containsSub q "simpai" then
      "SimpAI is the integrated assistant. It can run fully offline " ++
      "or, if enabled by an admin, connect to an online API."
    else
      "Offline mode: I only know a few things.\n" ++
      "Configure an online API and switch to 'ai online' " ++
      "for more powerful answers."
  let st := { st with aiStatus := { st.aiStatus with last_action := some "local_answer" } }
  emit answer st

/-- Python `SimpAI._handle_online`.  (The access-denied text reproduces the source
file's literal bytes.) -/
def handle_online (_question : String) (st : St) : St :=
  if ¬(st.cfg.allow_online_ai ∧ optTruthy st.cfg.api_key) then
    emit "ACCESS DENIED â€“ ADMIN CODE REQUIRED or API key missing." st
  else
    let st := emit ("[ONLINE AI] This is a placeholder. " ++
      "Implement your own API call in simp_os/ai.py:_handle_online().") st
    { st with aiStatus := { st.aiStatus with last_action := some "online_placeholder" } }

/-- Python `SimpAI.ask`. -/
def ask (question : String) (st : St) : St :=
  if st.cfg.ai_mode = "online" then handle_online question st
  else handle_local question st

/-! ## `command_parser.py`: registry -/

/-- The command handlers of `CommandParser`, as a closed enumeration. -/
inductive Cmd where
  | help | clear | status | ai | netstat | whoami | shutdown | reboot
  | admin | settings | apps | home | reset | mkdir | touch | ls
deriving DecidableEq, Repr

/-- Python `CommandParser._register`: dict insertion with overwrite semantics. -/
def register (m : List (String × Cmd)) (name : String) (c : Cmd) :
    List (String × Cmd) :=
  m.filter (fun p => !(p.1 == name)) ++ [(name, c)]

/-- Python `CommandParser._register_builtin_commands`, in source order. -/
def builtin_commands : List (String × Cmd) :=
  let m := register [] "help" .help
  let m := register m "clear" .clear
  let m := register m "status" .status
  let m := register m "ai" .ai
  let m := register m "netstat" .netstat
  let m := register m "whoami" .whoami
  let m := register m "shutdown" .shutdown
  let m := register m "reboot" .reboot
  let m := register m "admin" .admin
  let m := register m "settings" .settings
  let m := register m "apps" .apps
  let m := register m "home" .home
  let m := register m "reset" .reset
  let m := register m "mkdir" .mkdir
  let m := register m "touch" .touch
  register m "ls" .ls

/-- Python `self._commands.get(cmd)`. -/
def lookupCmd (m : List (String × Cmd)) (name : String) : Option Cmd :=
  (m.find? (fun p => p.1 == name)).map (fun p => p.2)

/-- Padding used by the help listing (field width 10, then a space). -/
def padRight (s : String) (w : Nat) : String :=
  s ++ String.mk (List.replicate (w - s.length) ' ')

/-- Lexicographic order on code points (Python `<` on strings). -/
def ltCharList : List Char → List Char → Bool
  | [], [] => false
  | [], _ :: _ => true
  | _ :: _, [] => false
  | a :: as, b :: bs =>
    if a.val.toNat < b.val.toNat then true
    else if b.val.toNat < a.val.toNat then false
    else ltCharList as bs

/-- Python `a < b` on strings. -/
def ltString (a b : String) : Bool := ltCharList a.data b.data

/-- Insert a string into an already sorted list (for Python `sorted`). -/
def insertSorted (s : String) : List String → List String
  | [] => [s]
  | t :: ts => if ltString s t then s :: t :: ts else t :: insertSorted s ts

/-- Python `sorted` on a list of strings. -/
def sortStrings (l : List String) : List String := l.foldr insertSorted []

/-- The static description table in `_cmd_help` (`settings` has no entry and
gets the `.get(name, "")` default). -/
def helpDesc (name : String) : String :=
  if name = "help" then "Show this help message."
  else if name = "clear" then "Clear the screen."
  else if name = "status" then "Show system status."
  else if name = "ai" then "Interact with SimpAI (ai local|online|status)."
  else if name = "netstat" then "Show simulated network status."
  else if name = "whoami" then "Show current user."
  else if name = "shutdown" then "Power off SimpOs."
  else if name = "reboot" then "Reboot SimpOs."
  else if name = "admin" then "Admin tools (requires admin)."
  else if name = "home" then "Return to home menu."
  else if name = "reset" then "Factory reset (clear config)."
  else if name = "apps" then "Open apps manager."
  else if name = "mkdir" then "[FUTURE] create directory."
  else if name = "touch" then "[FUTURE] create file."
  else if name = "ls" then "[FUTURE] list files."
  else ""

/-! ## `command_parser.py`: simple handlers -/

/-- Python `clear_screen()` (an `os.system` call; modelled as a transcript marker). -/
def clear_screen (st : St) : St := emit "[clear_screen]" st

/-- Python `CommandParser._cmd_help`. -/
def cmd_help (st : St) : St :=
  let st := emit "Available commands:" st
  emits ((sortStrings (builtin_commands.map (fun p => p.1))).map
    (fun name => "  " ++ padRight name 10 ++ " " ++ helpDesc name)) st

/-- Python `CommandParser._cmd_status`. -/
def cmd_status (st : St) : St :=
  emits
    [ "--- System status ---"
    , "User   : " ++ (match st.user with | some u => u.username | none => "none")
    , "Priv   : " ++ (match st.user with
        | some u => if u.is_admin then "admin" else "user"
        | none => "user")
    , "Uptime : " ++ st.uptime
    , "Network: ONLINE (simulated)"
    , "AI mode: " ++ st.cfg.ai_mode ] st

/-- Python `CommandParser._cmd_netstat`. -/
def cmd_netstat (st : St) : St :=
  emits
    [ "--- Netstat (simulated) ---"
    , "Interface   Status   IP"
    , "lo          UP       127.0.0.1"
    , "eth0        UP       10.0.2.15"
    , ""
    , "Active connections:"
    , "tcp  0  0  10.0.2.15:1337  10.0.2.2:22  ESTABLISHED" ] st

/-- Python `CommandParser._cmd_whoami`. -/
def cmd_whoami (st : St) : St :=
  match st.user with
  | none => emit "Not logged in." st
  | some u =>
      emit (u.username ++ " (" ++ (if u.is_admin then "admin" else "user") ++ ")") st

/-- Python `CommandParser._stub_future`. -/
def stub_future (st : St) : St :=
  emit "[FUTURE] This command is reserved for the simulated file system." st

/-- Python `show_system_info()` (`system_info.py`: prints host/platform fields read
from the environment; modelled as a transcript marker). -/
def show_system_info (st : St) : St := emit "[system_info]" st

/-! ## Event-preservation facts for the pure helpers -/

@[simp] theorem emit_events (s : String) (st : St) : (emit s st).events = st.events := rfl

@[simp] theorem emits_events (l : List String) (st : St) :
    (emits l st).events = st.events := rfl

@[simp] theorem emit_cfg (s : String) (st : St) : (emit s st).cfg = st.cfg := rfl

@[simp] theorem emit_file (s : String) (st : St) : (emit s st).file = st.file := rfl

@[simp] theorem emit_user (s : String) (st : St) : (emit s st).user = st.user := rfl

@[simp] theorem emit_failed (s : String) (st : St) :
    (emit s st).failed_logins = st.failed_logins := rfl

@[simp] theorem emit_sec_logs (s : String) (st : St) :
    (emit s st).sec_logs = st.sec_logs := rfl

@[simp] theorem emit_aiStatus (s : String) (st : St) :
    (emit s st).aiStatus = st.aiStatus := rfl

@[simp] theorem emit_clock (s : String) (st : St) : (emit s st).clock = st.clock := rfl

@[simp] theorem emit_output (s : String) (st : St) :
    (emit s st).output = st.output ++ [s] := rfl

@[simp] theorem emits_cfg (l : List String) (st : St) : (emits l st).cfg = st.cfg := rfl

@[simp] theorem emits_file (l : List String) (st : St) : (emits l st).file = st.file := rfl

@[simp] theorem emits_user (l : List String) (st : St) : (emits l st).user = st.user := rfl

@[simp] theorem emits_failed (l : List String) (st : St) :
    (emits l st).failed_logins = st.failed_logins := rfl

@[simp] theorem emits_sec_logs (l : List String) (st : St) :
    (emits l st).sec_logs = st.sec_logs := rfl

@[simp] theorem emits_aiStatus (l : List String) (st : St) :
    (emits l st).aiStatus = st.aiStatus := rfl

@[simp] theorem emits_clock (l : List String) (st : St) :
    (emits l st).clock = st.clock := rfl

@[simp] theorem emits_output (l : List String) (st : St) :
    (emits l st).output = st.output ++ l := rfl

@[simp] theorem sec_log_events (u e : String) (st : St) :
    (sec_log u e st).events = st.events := rfl

@[simp] theorem record_failed_login_events (u : String) (st : St) :
    (record_failed_login u st).events = st.events := rfl

@[simp] theorem show_logs_events (st : St) : (show_logs st).events = st.events := by
  unfold show_logs; split <;> rfl

@[simp] theorem require_admin_events (st : St) :
    (require_admin st).2.events = st.events := by
  unfold require_admin
  rcases st.user with - | u
  · rfl
  · dsimp only; split <;> rfl

@[simp] theorem show_status_events (st : St) : (show_status st).events = st.events := rfl

@[simp] theorem set_mode_events (m : String) (st : St) :
    (set_mode m st).events = st.events := by
  unfold set_mode; split
  · rfl
  · split <;> rfl

@[simp] theorem handle_local_events (q : String) (st : St) :
    (handle_local q st).events = st.events := rfl

@[simp] theorem handle_online_events (q : String) (st : St) :
    (handle_online q st).events = st.events := by
  unfold handle_online; split <;> rfl

@[simp] theorem ask_events (q : String) (st : St) : (ask q st).events = st.events := by
  unfold ask; split <;> simp

theorem readLine_lt {st : St} {a : String} {st' : St}
    (h : readLine st = some (a, st')) :
    st'.events.length < st.events.length := by
  unfold readLine at h
  split at h
  · simp only [Option.some.injEq, Prod.mk.injEq] at h
    obtain ⟨-, rfl⟩ := h
    simp_all
  · exact absurd h (by simp)

theorem readMenu_lt {st : St} {a : Option Nat} {st' : St}
    (h : readMenu st = some (a, st')) :
    st'.events.length < st.events.length := by
  unfold readMenu at h
  split at h
  · simp only [Option.some.injEq, Prod.mk.injEq] at h
    obtain ⟨-, rfl⟩ := h
    simp_all
  · exact absurd h (by simp)

theorem readProc_lt {st : St} {a : Bool} {st' : St}
    (h : readProc st = some (a, st')) :
    st'.events.length < st.events.length := by
  unfold readProc at h
  split at h
  · simp only [Option.some.injEq, Prod.mk.injEq] at h
    obtain ⟨-, rfl⟩ := h
    simp_all
  · exact absurd h (by simp)

theorem readProcOut_lt {st : St} {a : Option String} {st' : St}
    (h : readProcOut st = some (a, st')) :
    st'.events.length < st.events.length := by
  unfold readProcOut at h
  split at h
  · simp only [Option.some.injEq, Prod.mk.injEq] at h
    obtain ⟨-, rfl⟩ := h
    simp_all
  · exact absurd h (by simp)

/-! ## `command_parser.py`: input-consuming handlers -/

/-- Python `CommandParser._cmd_ai`.  (`none` models an uncaught `EOFError`.) -/
def cmd_ai (args : List String) (st : St) : Option St :=
  match args with
  | [] =>
    match readLine st with
    | none => none
    | some (q, st) => some (ask q st)
  | sub0 :: _ =>
    let sub := pyLower sub0
    if sub = "local" then some (set_mode "local" st)
    else if sub = "online" then some (set_mode "online" st)
    else if sub = "status" then some (show_status st)
    else some (emit "Usage: ai [local|online|status] or just 'ai' to ask a question." st)

/-- Python `CommandParser._cmd_admin`. -/
def cmd_admin (st : St) : Option St :=
  match require_admin st with
  | (false, st) => some st
  | (true, st) =>
    let st := emits
      [ "--- Admin menu ---"
      , "1) Show security logs"
      , "2) Set API key"
      , "3) Toggle online AI allowed"
      , "4) Show current config" ] st
    match readLine st with
    | none => none
    | some (choice0, st) =>
      let choice := pyStrip choice0
      if choice = "" then some st
      else if choice = "1" then some (show_logs st)
      else if choice = "2" then
        match readLine st with
        | none => none
        | some (key0, st) =>
          let key := pyStrip key0
          let cfg := { st.cfg with api_key := if key = "" then none else some key }
          let st := { st with cfg := cfg, file := save_config cfg }
          some (emit "API key updated." st)
      else if choice = "3" then
        let cfg := { st.cfg with allow_online_ai := !st.cfg.allow_online_ai }
        let st := { st with cfg := cfg, file := save_config cfg }
        some (emit ("Online AI allowed: " ++ pyBool st.cfg.allow_online_ai) st)
      else if choice = "4" then
        some (emits
          [ "admin_code       : (hidden)"
          , "ai_mode          : " ++ st.cfg.ai_mode
          , "api_key          : " ++ (if optTruthy st.cfg.api_key then "set" else "not set")
          , "allow_online_ai  : " ++ pyBool st.cfg.allow_online_ai ] st)
      else some st

/-- Python `CommandParser._settings_reset`.  Note: the source performs no
`require_admin` check here — it gates on interactive re-entry of the admin
code only. -/
def settings_reset (st : St) : Option St :=
  let st := emit "Admin verification required for factory reset." st
  match readLine st with
  | none => none
  | some (code, st) =>
    if pyStrip code ≠ st.cfg.admin_code then
      some (emit "Invalid admin code. Reset aborted." st)
    else
      let st := emit "This will delete SimpOs configuration (simp_config.json)." st
      match readLine st with
      | none => none
      | some (confirm, st) =>
        if pyStrip confirm ≠ "RESET" then
          some (emit "Reset cancelled." st)
        else if st.file ≠ ConfigFile.missing ∧ st.fsFailDelete then
          some (emit "Could not delete config file. Check permissions." st)
        else
          let st := { st with file := ConfigFile.missing }
          some (emit "Factory reset complete. Restart SimpOs to run first-time setup again." st)

/-- Python `CommandParser._settings_check_updates`. -/
def settings_check_updates (st : St) : Option St :=
  let st := emit "Checking for updates..." st
  if ¬st.gitClone then
    some (emit "This installation is not a Git clone. Cannot check for updates." st)
  else
    match readProc st with
    | none => none
    | some (ok, st) =>
      if ¬ok then
        some (emit "Could not reach Git remote. Check network or GitHub URL." st)
      else
        match readProcOut st with
        | none => none
        | some (lres, st) =>
          match lres with
          | none => some (emit "Cannot compare with remote branch. Maybe no upstream is set." st)
          | some lcl =>
            match readProcOut st with
            | none => none
            | some (rres, st) =>
              match rres with
              | none => some (emit "Cannot compare with remote branch. Maybe no upstream is set." st)
              | some rmt =>
                if pyStrip lcl = pyStrip rmt then
                  some (emit "You are up to date. No updates available." st)
                else
                  some (emit "New updates are available. Run 'settings' → 'Update from GitHub' to apply them." st)

/-- Python `CommandParser._settings_update`. -/
def settings_update (st : St) : Option St :=
  match require_admin st with
  | (false, st) => some st
  | (true, st) =>
    let current := optStrOr st.cfg.update_repo_url "https://github.com/freezingjoeri/SimpOs.git"
    let st := emit ("Current GitHub URL: " ++ current) st
    match readLine st with
    | none => none
    | some (url0, st) =>
      let url := strOr (pyStrip url0) current
      let cfg := { st.cfg with update_repo_url := some url }
      let st := { st with cfg := cfg, file := save_config cfg }
      if ¬st.gitClone then
        some (emit "This installation is not a Git clone. Update via GitHub is not possible here." st)
      else
        let st := emit ("Updating from " ++ url ++ " ...") st
        match readProc st with
        | none => none
        | some (ok1, st) =>
          if ¬ok1 then
            some (emit "Update failed. Check the GitHub URL and network connection." st)
          else
            match readProc st with
            | none => none
            | some (ok2, st) =>
              if ¬ok2 then
                some (emit "Update failed. Check the GitHub URL and network connection." st)
              else
                some (emit "Update complete. Restart SimpOs (reboot/shutdown) to use the new version." st)

/-- The menu lines printed at the top of `_cmd_settings`. -/
def settingsMenuLines : List String :=
  [ "--- Settings ---"
  , "1) Server / OS info"
  , "2) Check for updates"
  , "3) Update from GitHub"
  , "4) Factory reset (clear config)" ]

/-- Python `CommandParser._cmd_settings`. -/
def cmd_settings (st : St) : Option St :=
  let st := emits settingsMenuLines st
  match readLine st with
  | none => none
  | some (choice0, st) =>
    let choice := pyStrip choice0
    if choice = "" then some st
    else if choice = "1" then some (show_system_info st)
    else if choice = "2" then settings_check_updates st
    else if choice = "3" then settings_update st
    else if choice = "4" then settings_reset st
    else some st

/-- The visible, sorted app-file listing (`files` in `_cmd_apps`), recomputed
on every loop iteration from the static `appsFiles` environment field. -/
def appsListing (st : St) : List String :=
  sortStrings (st.appsFiles.filter (fun n => !(startsWithDot n)))

/-- The transcript lines printed at the top of each `_cmd_apps` iteration. -/
def appsPrologue (st : St) : St :=
  let files := appsListing st
  emits
    (["--- Apps ---"] ++
      (if files = [] then ["No apps installed yet."]
       else "Installed apps:" ::
         files.enum.map (fun p => toString (p.1 + 1) ++ ") " ++ p.2)) ++
      [ ""
      , "a) Add/install app (run custom command in apps folder)"
      , "q) Back" ]) st

@[simp] theorem appsPrologue_events (st : St) :
    (appsPrologue st).events = st.events := rfl

/-- Python `CommandParser._cmd_apps`: the apps-manager loop. -/
def cmd_apps (st : St) : Option St :=
  let files := appsListing st
  match h : readLine (appsPrologue st) with
  | none => none
  | some (choice0, st1) =>
    let choice := pyLower (pyStrip choice0)
    if choice = "q" ∨ choice = "" then some st1
    else if choice = "a" then
      match h2 : readLine (emit "Custom install command will run in the 'apps' folder." st1) with
      | none => none
      | some (cmdStr, st3) =>
        if pyStrip cmdStr = "" then cmd_apps st3
        else
          match h3 : readProc st3 with
          | none => none
          | some (ok, st4) =>
            cmd_apps (emit
              (if ok then "Command finished. Check the app list above."
               else "Install command failed.") st4)
    else
      match pyInt choice with
      | none => cmd_apps (emit "Invalid choice." st1)
      | some n =>
        let idx : Int := n - 1
        if idx < 0 ∨ (files.length : Int) ≤ idx then
          cmd_apps (emit "Invalid app number." st1)
        else
          match h4 : readProc (emit ("Running app: " ++ files.getD idx.toNat "") st1) with
          | none => none
          | some (ok, st3) =>
            cmd_apps (emits (if ok then [] else ["App exited with an error."]) st3)
termination_by st.events.length
decreasing_by
  all_goals
    (try have hlt := readLine_lt h)
    (try have hlt2 := readLine_lt h2)
    (try have hlt3 := readProc_lt h3)
    (try have hlt4 := readProc_lt h4)
    simp_all
    try omega

/-- Lift an `Option St` handler result into `Res`. -/
def Res.ofOpt : Option St → Res Unit
  | some st => .ok () st
  | none => .eof

/-- Dispatch to the registered handler bodies (`handler(args)` call sites).
`shutdown` and `home` are registered as `lambda args: None`; `reboot` raises
`SystemExit("REBOOT")`; `_cmd_reset` delegates to `_settings_reset`. -/
def runCmd (c : Cmd) (args : List String) (st : St) : Res Unit :=
  match c with
  | .help => .ok () (cmd_help st)
  | .clear => .ok () (clear_screen st)
  | .status => .ok () (cmd_status st)
  | .ai => Res.ofOpt (cmd_ai args st)
  | .netstat => .ok () (cmd_netstat st)
  | .whoami => .ok () (cmd_whoami st)
  | .shutdown => .ok () st
  | .reboot => .reboot st
  | .admin => Res.ofOpt (cmd_admin st)
  | .settings => Res.ofOpt (cmd_settings st)
  | .apps => Res.ofOpt (cmd_apps st)
  | .home => .ok () st
  | .reset => Res.ofOpt (settings_reset st)
  | .mkdir => .ok () (stub_future st)
  | .touch => .ok () (stub_future st)
  | .ls => .ok () (stub_future st)

/-- Python `CommandParser.handle_line`: returns `false` when the kernel should shut
down, `true` otherwise.  (The `[]` tokenization branch is unreachable for a
non-empty stripped line and maps to `eof`.) -/
def handle_line (line : String) (st : St) : Res Bool :=
  let line := pyStrip line
  if line = "" then .ok true st
  else
    match splitWs line with
    | [] => .eof
    | cmd0 :: args =>
      let cmd := pyLower cmd0
      match lookupCmd builtin_commands cmd with
      | none => .ok true (emit ("Unknown command: " ++ cmd) st)
      | some c =>
        if cmd = "shutdown" then .ok false st
        else
          match runCmd c args st with
          | .ok _ st => .ok true st
          | .reboot st => .reboot st
          | .eof => .eof

/-! ## Monotonicity: every handler only consumes events -/

/-- The state carried by a non-`eof` result. -/
def Res.stOf {α : Type} : Res α → Option St
  | .ok _ s => some s
  | .reboot s => some s
  | .eof => none

@[simp] theorem stOf_ok {α : Type} (a : α) (s : St) : (Res.ok a s).stOf = some s := rfl

@[simp] theorem stOf_reboot {α : Type} (s : St) :
    (Res.reboot (α := α) s).stOf = some s := rfl

@[simp] theorem stOf_eof {α : Type} : (Res.eof (α := α)).stOf = none := rfl

theorem cmd_ai_le {args : List String} {st st' : St}
    (h : cmd_ai args st = some st') :
    st'.events.length ≤ st.events.length := by
  unfold cmd_ai at h
  split at h
  · split at h
    next => exact Option.noConfusion h
    next q st1 heq =>
      have h1 := readLine_lt heq
      simp only [Option.some.injEq] at h
      subst h
      simp only [ask_events]
      omega
  · simp only at h
    split at h
    · simp only [Option.some.injEq] at h; subst h; simp
    · split at h
      · simp only [Option.some.injEq] at h; subst h; simp
      · split at h
        · simp only [Option.some.injEq] at h; subst h; simp
        · simp only [Option.some.injEq] at h; subst h; simp

theorem cmd_admin_le {st st' : St}
    (h : cmd_admin st = some st') :
    st'.events.length ≤ st.events.length := by
  unfold cmd_admin at h
  have hev := require_admin_events st
  rcases hra : require_admin st with ⟨b, st1⟩
  rw [hra] at h hev
  simp only at hev
  cases b
  · simp only [Option.some.injEq] at h
    subst h
    simp [hev]
  · simp only at h
    split at h
    next => exact Option.noConfusion h
    next choice0 st2 heq2 =>
      have h2 := readLine_lt heq2
      rw [emits_events, hev] at h2
      split at h
      · simp only [Option.some.injEq] at h; subst h; omega
      · split at h
        · simp only [Option.some.injEq] at h; subst h
          simp only [show_logs_events]; omega
        · split at h
          · split at h
            next => exact Option.noConfusion h
            next key0 st3 heq3 =>
              have h3 := readLine_lt heq3
              simp only [Option.some.injEq] at h; subst h
              simp only [emit_events]
              simp only [St.events] at h3 ⊢
              omega
          · split at h
            · simp only [Option.some.injEq] at h; subst h
              simp only [emit_events, St.events]; omega
            · split at h
              · simp only [Option.some.injEq] at h; subst h
                simp only [emits_events]; omega
              · simp only [Option.some.injEq] at h; subst h; omega

theorem settings_reset_le {st st' : St}
    (h : settings_reset st = some st') :
    st'.events.length ≤ st.events.length := by
  unfold settings_reset at h
  simp only at h
  split at h
  next => exact Option.noConfusion h
  next code st1 heq1 =>
    have h1 := readLine_lt heq1
    rw [emit_events] at h1
    split at h
    · simp only [Option.some.injEq] at h; subst h
      simp only [emit_events]; omega
    · split at h
      next => exact Option.noConfusion h
      next confirm st2 heq2 =>
        have h2 := readLine_lt heq2
        rw [emit_events] at h2
        split at h
        · simp only [Option.some.injEq] at h; subst h
          simp only [emit_events]; omega
        · split at h
          · simp only [Option.some.injEq] at h; subst h
            simp only [emit_events]; omega
          · simp only [Option.some.injEq] at h; subst h
            simp only [emit_events, St.events]; omega

theorem settings_check_updates_le {st st' : St}
    (h : settings_check_updates st = some st') :
    st'.events.length ≤ st.events.length := by
  unfold settings_check_updates at h
  simp only at h
  split at h
  · simp only [Option.some.injEq] at h; subst h; simp
  · split at h
    next => exact Option.noConfusion h
    next ok st1 heq1 =>
      have h1 := readProc_lt heq1
      rw [emit_events] at h1
      split at h
      · simp only [Option.some.injEq] at h; subst h
        simp only [emit_events]; omega
      · split at h
        next => exact Option.noConfusion h
        next lres st2 heq2 =>
          have h2 := readProcOut_lt heq2
          split at h
          · simp only [Option.some.injEq] at h; subst h
            simp only [emit_events]; omega
          · split at h
            next => exact Option.noConfusion h
            next rres st3 heq3 =>
              have h3 := readProcOut_lt heq3
              split at h
              · simp only [Option.some.injEq] at h; subst h
                simp only [emit_events]; omega
              · split at h
                · simp only [Option.some.injEq] at h; subst h
                  simp only [emit_events]; omega
                · simp only [Option.some.injEq] at h; subst h
                  simp only [emit_events]; omega

theorem settings_update_le {st st' : St}
    (h : settings_update st = some st') :
    st'.events.length ≤ st.events.length := by
  unfold settings_update at h
  have hev := require_admin_events st
  rcases hra : require_admin st with ⟨b, st1⟩
  rw [hra] at h hev
  simp only at hev
  cases b
  · simp only [Option.some.injEq] at h
    subst h
    simp [hev]
  · simp only at h
    split at h
    next => exact Option.noConfusion h
    next url0 st2 heq2 =>
      have h2 := readLine_lt heq2
      rw [emit_events, hev] at h2
      split at h
      · simp only [Option.some.injEq] at h; subst h
        simp only [emit_events, St.events]; omega
      · split at h
        next => exact Option.noConfusion h
        next ok1 st3 heq3 =>
          have h3 := readProc_lt heq3
          rw [emit_events] at h3
          simp only [St.events] at h3
          split at h
          · simp only [Option.some.injEq] at h; subst h
            simp only [emit_events]; omega
          · split at h
            next => exact Option.noConfusion h
            next ok2 st4 heq4 =>
              have h4 := readProc_lt heq4
              split at h
              · simp only [Option.some.injEq] at h; subst h
                simp only [emit_events]; omega
              · simp only [Option.some.injEq] at h; subst h
                simp only [emit_events]; omega

theorem cmd_settings_le {st st' : St}
    (h : cmd_settings st = some st') :
    st'.events.length ≤ st.events.length := by
  unfold cmd_settings at h
  simp only at h
  split at h
  next => exact Option.noConfusion h
  next choice0 st1 heq1 =>
    have h1 := readLine_lt heq1
    rw [emits_events] at h1
    split at h
    · simp only [Option.some.injEq] at h; subst h; omega
    · split at h
      · simp only [Option.some.injEq] at h; subst h
        simp only [show_system_info, emit_events]; omega
      · split at h
        · have := settings_check_updates_le h; omega
        · split at h
          · have := settings_update_le h; omega
          · split at h
            · have := settings_reset_le h; omega
            · simp only [Option.some.injEq] at h; subst h; omega

theorem cmd_apps_le_aux :
    ∀ (n : Nat) {st st' : St}, st.events.length ≤ n →
      cmd_apps st = some st' → st'.events.length ≤ st.events.length := by
  intro n
  induction n with
  | zero =>
    intro st st' hle h
    unfold cmd_apps at h
    simp only at h
    split at h
    next => exact Option.noConfusion h
    next choice0 st1 heq1 =>
      have h1 := readLine_lt heq1
      rw [appsPrologue_events] at h1
      omega
  | succ n ih =>
    intro st st' hle h
    unfold cmd_apps at h
    simp only at h
    split at h
    next => exact Option.noConfusion h
    next choice0 st1 heq1 =>
      have h1 := readLine_lt heq1
      rw [appsPrologue_events] at h1
      split at h
      · simp only [Option.some.injEq] at h; subst h; omega
      · split at h
        · split at h
          next => exact Option.noConfusion h
          next cmdStr st3 heq2 =>
            have h2 := readLine_lt heq2
            rw [emit_events] at h2
            split at h
            · have hrec := ih (by omega) h
              omega
            · split at h
              next => exact Option.noConfusion h
              next ok st4 heq3 =>
                have h3 := readProc_lt heq3
                have hrec := ih (by simp; omega) h
                rw [emit_events] at hrec
                omega
        · split at h
          · have hrec := ih (by simp; omega) h
            rw [emit_events] at hrec
            omega
          · split at h
            · have hrec := ih (by simp; omega) h
              rw [emit_events] at hrec
              omega
            · split at h
              next => exact Option.noConfusion h
              next ok st3 heq3 =>
                have h3 := readProc_lt heq3
                rw [emit_events] at h3
                have hrec := ih (by simp; omega) h
                rw [emits_events] at hrec
                omega

theorem cmd_apps_le {st st' : St} (h : cmd_apps st = some st') :
    st'.events.length ≤ st.events.length :=
  cmd_apps_le_aux st.events.length le_rfl h

@[simp] theorem ofOpt_stOf (o : Option St) : (Res.ofOpt o).stOf = o := by
  cases o <;> rfl

@[simp] theorem cmd_help_events (st : St) : (cmd_help st).events = st.events := rfl

@[simp] theorem clear_screen_events (st : St) : (clear_screen st).events = st.events := rfl

@[simp] theorem cmd_status_events (st : St) : (cmd_status st).events = st.events := rfl

@[simp] theorem cmd_netstat_events (st : St) : (cmd_netstat st).events = st.events := rfl

@[simp] theorem cmd_whoami_events (st : St) : (cmd_whoami st).events = st.events := by
  unfold cmd_whoami; split <;> rfl

@[simp] theorem stub_future_events (st : St) : (stub_future st).events = st.events := rfl

@[simp] theorem show_system_info_events (st : St) :
    (show_system_info st).events = st.events := rfl

theorem runCmd_le {c : Cmd} {args : List String} {st st' : St}
    (h : (runCmd c args st).stOf = some st') :
    st'.events.length ≤ st.events.length := by
  cases c <;>
    simp only [runCmd, stOf_ok, stOf_reboot, ofOpt_stOf, Option.some.injEq] at h
  case ai => exact cmd_ai_le h
  case admin => exact cmd_admin_le h
  case settings => exact cmd_settings_le h
  case apps => exact cmd_apps_le h
  case reset => exact settings_reset_le h
  all_goals subst h
  all_goals simp

theorem handle_line_le {line : String} {st st' : St}
    (h : (handle_line line st).stOf = some st') :
    st'.events.length ≤ st.events.length := by
  unfold handle_line at h
  simp only at h
  split at h
  · simp only [stOf_ok, Option.some.injEq] at h; subst h; omega
  · split at h
    next => exact Option.noConfusion h
    next cmd0 args hsplit =>
      split at h
      next => simp only [stOf_ok, Option.some.injEq] at h; subst h; simp
      next c hlk =>
        split at h
        · simp only [stOf_ok, Option.some.injEq] at h; subst h; omega
        · split at h
          next a st2 heq =>
            simp only [stOf_ok, Option.some.injEq] at h; subst h
            have hst : (runCmd c args st).stOf = some st2 := by rw [heq]; rfl
            exact runCmd_le hst
          next st2 heq =>
            simp only [stOf_reboot, Option.some.injEq] at h; subst h
            have hst : (runCmd c args st).stOf = some st2 := by rw [heq]; rfl
            exact runCmd_le hst
          next heq => exact Option.noConfusion h

/-! ## `kernel.py` -/

/-- Python `SimpKernel._show_logo` (the logo file's lines are environment data,
modelled as a single marker line, followed by the version banner and the
blank `print()`). -/
def show_logo (st : St) : St :=
  emits ["[logo]", "--- v0.1 Alpha ---", ""] st

@[simp] theorem show_logo_events (st : St) : (show_logo st).events = st.events := rfl

/-- Python `SimpKernel._run_boot_sequence`: five scripted diagnostic lines, the
ready banner, and the blocking ENTER acknowledgement. -/
def boot_sequence (st : St) : Option St :=
  match readLine (emits
    [ "Loading kernel modules...[OK]"
    , "Initializing memory manager...[OK]"
    , "Mounting virtual file systems...[OK]"
    , "Checking AI module...[OK]"
    , "Checking network interfaces...[OK]"
    , ""
    , "System ready. Press ENTER to continue to login." ] st) with
  | none => none
  | some (_, st) => some st

theorem boot_sequence_lt {st st' : St} (h : boot_sequence st = some st') :
    st'.events.length < st.events.length := by
  unfold boot_sequence at h
  split at h
  next => exact Option.noConfusion h
  next a st1 heq =>
    have h1 := readLine_lt heq
    rw [emits_events] at h1
    simp only [Option.some.injEq] at h
    subst h
    exact h1

/-- The admin-code confirmation loop inside `_first_run_setup_if_needed`:
reads a new code (blank keeps `cur`, the code configured at loop entry) and a
confirmation, and repeats until they match; returns the accepted code. -/
def codeLoop (cur : String) (st : St) : Option (String × St) :=
  match h1 : readLine st with
  | none => none
  | some (c0, st1) =>
    let newCode := strOr (pyStrip c0) cur
    match h2 : readLine st1 with
    | none => none
    | some (conf, st2) =>
      if newCode ≠ pyStrip conf then
        codeLoop cur (emit "Codes do not match, try again." st2)
      else
        some (newCode, st2)
termination_by st.events.length
decreasing_by
  have ha := readLine_lt h1
  have hb := readLine_lt h2
  simp only [emit_events]
  omega

theorem codeLoop_le_aux :
    ∀ (n : Nat) {cur : String} {st : St} {r : String} {st' : St},
      st.events.length ≤ n →
      codeLoop cur st = some (r, st') → st'.events.length ≤ st.events.length := by
  intro n
  induction n with
  | zero =>
    intro cur st r st' hle h
    unfold codeLoop at h
    split at h
    next => exact Option.noConfusion h
    next c0 st1 heq1 =>
      have h1 := readLine_lt heq1
      omega
  | succ n ih =>
    intro cur st r st' hle h
    unfold codeLoop at h
    split at h
    next => exact Option.noConfusion h
    next c0 st1 heq1 =>
      have h1 := readLine_lt heq1
      simp only at h
      split at h
      next => exact Option.noConfusion h
      next conf st2 heq2 =>
        have h2 := readLine_lt heq2
        split at h
        · have hrec := ih (by simp; omega) h
          rw [emit_events] at hrec
          omega
        · simp only [Option.some.injEq, Prod.mk.injEq] at h
          obtain ⟨-, rfl⟩ := h
          omega

theorem codeLoop_le {cur : String} {st : St} {r : String} {st' : St}
    (h : codeLoop cur st = some (r, st')) :
    st'.events.length ≤ st.events.length :=
  codeLoop_le_aux st.events.length le_rfl h

/-- Python `SimpKernel._first_run_setup_if_needed`. -/
def first_run_setup_if_needed (st : St) : Option St :=
  if st.cfg.first_run_completed then some st
  else
    match readLine (emit "=== First time setup ===" st) with
    | none => none
    | some (owner0, st) =>
      let owner := strOr (pyStrip owner0) "owner"
      match codeLoop st.cfg.admin_code st with
      | none => none
      | some (code, st) =>
        let cfg := { st.cfg with
          admin_code := code
          owner_name := some owner
          first_run_completed := true }
        let st := { st with cfg := cfg, file := save_config cfg }
        match readLine (emit
          "Setup complete. You can change settings later via 'admin' and 'settings'." st) with
        | none => none
        | some (_, st) => some st

theorem first_run_setup_le {st st' : St}
    (h : first_run_setup_if_needed st = some st') :
    st'.events.length ≤ st.events.length := by
  unfold first_run_setup_if_needed at h
  split at h
  · simp only [Option.some.injEq] at h; subst h; omega
  · split at h
    next => exact Option.noConfusion h
    next owner0 st1 heq1 =>
      have h1 := readLine_lt heq1
      rw [emit_events] at h1
      simp only at h
      split at h
      next => exact Option.noConfusion h
      next code st2 heq2 =>
        have h2 := codeLoop_le heq2
        split at h
        next => exact Option.noConfusion h
        next a st3 heq3 =>
          have h3 := readLine_lt heq3
          rw [emit_events] at h3
          simp only [St.events] at h3
          simp only [Option.some.injEq] at h
          subst h
          omega

theorem login_lt {st : St} {r : Option User} {st' : St}
    (h : login st = some (r, st')) :
    st'.events.length < st.events.length := by
  unfold login at h
  simp only at h
  split at h
  next => exact Option.noConfusion h
  next uname st1 heq1 =>
    have h1 := readLine_lt heq1
    rw [emit_events] at h1
    split at h
    · split at h
      next => exact Option.noConfusion h
      next code st2 heq2 =>
        have h2 := readLine_lt heq2
        split at h
        · simp only [Option.some.injEq, Prod.mk.injEq] at h
          obtain ⟨-, rfl⟩ := h
          simp only [record_failed_login_events, emit_events]
          omega
        · simp only [Option.some.injEq, Prod.mk.injEq] at h
          obtain ⟨-, rfl⟩ := h
          simp only [sec_log_events, St.events]
          omega
    · simp only [Option.some.injEq, Prod.mk.injEq] at h
      obtain ⟨-, rfl⟩ := h
      simp only [sec_log_events, St.events]
      omega

/-- The kernel's login loop (`while user is None: user = self.auth.login()`). -/
def loginLoop (st : St) : Option (User × St) :=
  match h : login st with
  | none => none
  | some (some u, st1) => some (u, st1)
  | some (none, st1) => loginLoop st1
termination_by st.events.length
decreasing_by
  have := login_lt h
  omega

theorem loginLoop_le_aux :
    ∀ (n : Nat) {st : St} {u : User} {st' : St},
      st.events.length ≤ n →
      loginLoop st = some (u, st') → st'.events.length ≤ st.events.length := by
  intro n
  induction n with
  | zero =>
    intro st u st' hle h
    unfold loginLoop at h
    split at h
    next => exact Option.noConfusion h
    next v st1 heq => have := login_lt heq; omega
    next st1 heq => have := login_lt heq; omega
  | succ n ih =>
    intro st u st' hle h
    unfold loginLoop at h
    split at h
    next => exact Option.noConfusion h
    next v st1 heq =>
      have := login_lt heq
      simp only [Option.some.injEq, Prod.mk.injEq] at h
      obtain ⟨-, rfl⟩ := h
      omega
    next st1 heq =>
      have := login_lt heq
      have hrec := ih (by omega) h
      omega

theorem loginLoop_le {st : St} {u : User} {st' : St}
    (h : loginLoop st = some (u, st')) :
    st'.events.length ≤ st.events.length :=
  loginLoop_le_aux st.events.length le_rfl h

/-- Python `SimpKernel._command_loop`: prompt, read, dispatch; `shutdown` and `home`
are intercepted before dispatch; end-of-input breaks the loop. -/
def command_loop (st : St) : Res Unit :=
  match h : readLine st with
  | none => .ok () st
  | some (line, st1) =>
    let cmd := pyLower (pyStrip line)
    if cmd = "shutdown" then .ok () st1
    else if cmd = "home" then .ok () st1
    else
      match h2 : handle_line line st1 with
      | .ok cont st2 => if cont then command_loop st2 else .ok () st2
      | .reboot st2 => .reboot st2
      | .eof => .eof
termination_by st.events.length
decreasing_by
  have ha := readLine_lt h
  have hb : (handle_line line st1).stOf = some st2 := by rw [h2]; rfl
  have hc := handle_line_le hb
  omega

theorem command_loop_le_aux :
    ∀ (n : Nat) {st st' : St}, st.events.length ≤ n →
      (command_loop st).stOf = some st' → st'.events.length ≤ st.events.length := by
  intro n
  induction n with
  | zero =>
    intro st st' hle h
    unfold command_loop at h
    split at h
    · simp only [stOf_ok, Option.some.injEq] at h; subst h; omega
    · next line st1 heq => have := readLine_lt heq; omega
  | succ n ih =>
    intro st st' hle h
    unfold command_loop at h
    split at h
    · simp only [stOf_ok, Option.some.injEq] at h; subst h; omega
    · next line st1 heq =>
      have h1 := readLine_lt heq
      simp only at h
      split at h
      · simp only [stOf_ok, Option.some.injEq] at h; subst h; omega
      · split at h
        · simp only [stOf_ok, Option.some.injEq] at h; subst h; omega
        · split at h
          next cont st2 heq2 =>
            have hb : (handle_line line st1).stOf = some st2 := by rw [heq2]; rfl
            have h2 := handle_line_le hb
            split at h
            · have hrec := ih (by omega) h
              omega
            · simp only [stOf_ok, Option.some.injEq] at h; subst h; omega
          next st2 heq2 =>
            have hb : (handle_line line st1).stOf = some st2 := by rw [heq2]; rfl
            have h2 := handle_line_le hb
            simp only [stOf_reboot, Option.some.injEq] at h; subst h; omega
          next heq2 => exact Option.noConfusion h

theorem command_loop_le {st st' : St}
    (h : (command_loop st).stOf = some st') :
    st'.events.length ≤ st.events.length :=
  command_loop_le_aux st.events.length le_rfl h

/-- The transcript lines at the top of each `_home_screen` iteration
(screen clear, logo, owner-personalised greeting; `self.cfg.owner_name or
"User"`). -/
def homePrologue (st : St) : St :=
  emit ("Welcome, " ++ optStrOr st.cfg.owner_name "User" ++ ". Use ↑/↓ and ENTER.")
    (show_logo (clear_screen st))

@[simp] theorem homePrologue_events (st : St) :
    (homePrologue st).events = st.events := rfl

/-- Python `SimpKernel._home_screen`: the interactive home menu.  Cancelling the
menu (`none`) and "Open command line" both run the command loop and redraw;
"Apps"/"Settings"/"Admin tools"/"AI console" run the corresponding handler
inline and redraw; "Shutdown" returns; "Reboot" raises the reboot signal.
A menu index outside the option list cannot be produced by `select_menu` and
maps to `eof`. -/
def home_screen (st : St) : Res Unit :=
  match h : readMenu (homePrologue st) with
  | none => .eof
  | some (choice, st1) =>
    match choice with
    | none =>
      match h2 : command_loop st1 with
      | .ok _ st2 => home_screen st2
      | .reboot st2 => .reboot st2
      | .eof => .eof
    | some 0 =>
      match h2 : command_loop st1 with
      | .ok _ st2 => home_screen st2
      | .reboot st2 => .reboot st2
      | .eof => .eof
    | some 1 =>
      match h2 : cmd_apps st1 with
      | none => .eof
      | some st2 => home_screen st2
    | some 2 =>
      match h2 : cmd_settings st1 with
      | none => .eof
      | some st2 => home_screen st2
    | some 3 =>
      match h2 : cmd_admin st1 with
      | none => .eof
      | some st2 => home_screen st2
    | some 4 =>
      match h2 : cmd_ai [] st1 with
      | none => .eof
      | some st2 => home_screen st2
    | some 5 => .ok () st1
    | some 6 => .reboot st1
    | some _ => .eof
termination_by st.events.length
decreasing_by
  · have ha := readMenu_lt h
    have hb : (command_loop st1).stOf = some st2 := by rw [h2]; rfl
    have hc := command_loop_le hb
    simp only [homePrologue_events] at ha
    omega
  · have ha := readMenu_lt h
    have hb : (command_loop st1).stOf = some st2 := by rw [h2]; rfl
    have hc := command_loop_le hb
    simp only [homePrologue_events] at ha
    omega
  · have ha := readMenu_lt h
    have hc := cmd_apps_le h2
    simp only [homePrologue_events] at ha
    omega
  · have ha := readMenu_lt h
    have hc := cmd_settings_le h2
    simp only [homePrologue_events] at ha
    omega
  · have ha := readMenu_lt h
    have hc := cmd_admin_le h2
    simp only [homePrologue_events] at ha
    omega
  · have ha := readMenu_lt h
    have hc := cmd_ai_le h2
    simp only [homePrologue_events] at ha
    omega

theorem home_screen_le_aux :
    ∀ (n : Nat) {st st' : St}, st.events.length ≤ n →
      (home_screen st).stOf = some st' → st'.events.length ≤ st.events.length := by
  intro n
  induction n with
  | zero =>
    intro st st' hle h
    unfold home_screen at h
    split at h
    next => exact Option.noConfusion h
    next choice st1 heq =>
      have := readMenu_lt heq
      simp only [homePrologue_events] at this
      omega
  | succ n ih =>
    intro st st' hle h
    unfold home_screen at h
    split at h
    next => exact Option.noConfusion h
    next choice st1 heq =>
      have h1 := readMenu_lt heq
      simp only [homePrologue_events] at h1
      split at h
      · split at h
        next a st2 heq2 =>
          have hb : (command_loop st1).stOf = some st2 := by rw [heq2]; rfl
          have h2 := command_loop_le hb
          have hrec := ih (by omega) h
          omega
        next st2 heq2 =>
          have hb : (command_loop st1).stOf = some st2 := by rw [heq2]; rfl
          have h2 := command_loop_le hb
          simp only [stOf_reboot, Option.some.injEq] at h; subst h; omega
        next heq2 => exact Option.noConfusion h
      · split at h
        next a st2 heq2 =>
          have hb : (command_loop st1).stOf = some st2 := by rw [heq2]; rfl
          have h2 := command_loop_le hb
          have hrec := ih (by omega) h
          omega
        next st2 heq2 =>
          have hb : (command_loop st1).stOf = some st2 := by rw [heq2]; rfl
          have h2 := command_loop_le hb
          simp only [stOf_reboot, Option.some.injEq] at h; subst h; omega
        next heq2 => exact Option.noConfusion h
      · split at h
        next heq2 => exact Option.noConfusion h
        next st2 heq2 =>
          have h2 := cmd_apps_le heq2
          have hrec := ih (by omega) h
          omega
      · split at h
        next heq2 => exact Option.noConfusion h
        next st2 heq2 =>
          have h2 := cmd_settings_le heq2
          have hrec := ih (by omega) h
          omega
      · split at h
        next heq2 => exact Option.noConfusion h
        next st2 heq2 =>
          have h2 := cmd_admin_le heq2
          have hrec := ih (by omega) h
          omega
      · split at h
        next heq2 => exact Option.noConfusion h
        next st2 heq2 =>
          have h2 := cmd_ai_le heq2
          have hrec := ih (by omega) h
          omega
      · simp only [stOf_ok, Option.some.injEq] at h; subst h; omega
      · simp only [stOf_reboot, Option.some.injEq] at h; subst h; omega
      · exact Option.noConfusion h

theorem home_screen_le {st st' : St}
    (h : (home_screen st).stOf = some st') :
    st'.events.length ≤ st.events.length :=
  home_screen_le_aux st.events.length le_rfl h

/-- Python `SimpKernel._boot_once`: clear screen, logo, conditional first-run setup,
diagnostics, login loop, dispatcher construction, home screen. -/
def boot_once (st : St) : Res Unit :=
  match first_run_setup_if_needed (show_logo (clear_screen st)) with
  | none => .eof
  | some st =>
    match boot_sequence st with
    | none => .eof
    | some st =>
      match loginLoop st with
      | none => .eof
      | some (_, st) => home_screen st

theorem boot_once_reboot_lt {st s : St} (h : boot_once st = Res.reboot s) :
    s.events.length < st.events.length := by
  unfold boot_once at h
  split at h
  next => exact Res.noConfusion h
  next st1 heq1 =>
    have h1 := first_run_setup_le heq1
    simp only [show_logo_events, clear_screen_events] at h1
    split at h
    next => exact Res.noConfusion h
    next st2 heq2 =>
      have h2 := boot_sequence_lt heq2
      split at h
      next => exact Res.noConfusion h
      next u st3 heq3 =>
        have h3 := loginLoop_le heq3
        have hb : (home_screen st3).stOf = some s := by rw [h]; rfl
        have h4 := home_screen_le hb
        omega

/-- Python `SimpKernel.boot`: repeat `_boot_once`, restarting it whenever the reboot
signal unwinds to this driver; any other outcome ends the loop. -/
def boot (st : St) : Res Unit :=
  match h : boot_once st with
  | .ok a s => .ok a s
  | .eof => .eof
  | .reboot s => boot s
termination_by st.events.length
decreasing_by
  have := boot_once_reboot_lt h
  omega

/-! ## Fixture states -/

/-- A machine state as `SimpKernel.__init__` + login would produce it: the
configuration is the persisted one, the AI status mirrors `SimpAI.__init__`
(`online_available = bool(cfg.api_key and cfg.allow_online_ai)`). -/
def mkSt (cfg : SimpConfig) (user : Option User) (events : List Ev) : St :=
  { cfg := cfg
  , file := save_config cfg
  , user := user
  , aiStatus :=
      { mode := cfg.ai_mode
      , online_available := cfg.allow_online_ai && optTruthy cfg.api_key }
  , events := events }

/-! ## Claims -/

/-- C4: for every argument list, dispatching a line whose first token
case-folds to `shutdown` returns the stop value `false` with the state
untouched (no handler body runs), and the registered `shutdown` handler is a
no-op placeholder. -/
theorem c4_shutdown_special_case {line tok : String} {args : List String} {st : St}
    (hsplit : splitWs (pyStrip line) = tok :: args)
    (htok : pyLower tok = "shutdown") :
    handle_line line st = Res.ok false st ∧
    lookupCmd builtin_commands "shutdown" = some Cmd.shutdown ∧
    (∀ (args2 : List String) (st2 : St), runCmd Cmd.shutdown args2 st2 = Res.ok () st2) := by
  refine ⟨?_, by decide, fun args2 st2 => rfl⟩
  unfold handle_line
  have hne : ¬(pyStrip line = "") := by
    intro hE
    rw [hE] at hsplit
    have h0 : splitWs "" = ([] : List String) := by decide
    rw [h0] at hsplit
    exact List.noConfusion hsplit
  have hlk : lookupCmd builtin_commands "shutdown" = some Cmd.shutdown := by decide
  simp only [hne, if_false, hsplit, htok, hlk, if_pos]

/-- C4 witness: `handle_line "SHUTDOWN now"` stops without running the
handler, whose body is a no-op. -/
theorem c4_witness :
    handle_line "SHUTDOWN now" (mkSt defaultConfig none []) =
      Res.ok false (mkSt defaultConfig none []) ∧
    runCmd Cmd.shutdown ["now"] (mkSt defaultConfig none []) =
      Res.ok () (mkSt defaultConfig none []) :=
  ⟨(@c4_shutdown_special_case "SHUTDOWN now" "SHUTDOWN" ["now"]
      (mkSt defaultConfig none []) (by decide) (by decide)).1,
   (@c4_shutdown_special_case "SHUTDOWN now" "SHUTDOWN" ["now"]
      (mkSt defaultConfig none []) (by decide) (by decide)).2.2
      ["now"] (mkSt defaultConfig none [])⟩

/-- C5: dispatching a line whose first token case-folds to a registered name
invokes exactly that command's handler, on the whitespace-split tail of the
line, and returns the continue value unless the handler raised the reboot
signal or hit end-of-input.  The one special case is the registered no-op
`shutdown`: dispatch returns the stop value with the state exactly as the
no-op handler would leave it. -/
theorem c5_dispatch_registered :
    (∀ (line tok : String) (args : List String) (c : Cmd) (st : St),
      splitWs (pyStrip line) = tok :: args →
      lookupCmd builtin_commands (pyLower tok) = some c →
      pyLower tok ≠ "shutdown" →
      handle_line line st =
        (match runCmd c args st with
         | .ok _ s => Res.ok true s
         | .reboot s => Res.reboot s
         | .eof => Res.eof)) ∧
    (∀ (line tok : String) (args : List String) (st : St),
      splitWs (pyStrip line) = tok :: args →
      pyLower tok = "shutdown" →
      handle_line line st = Res.ok false st ∧
      runCmd Cmd.shutdown args st = Res.ok () st) := by
  constructor
  · intro line tok args c st hsplit hlk hns
    unfold handle_line
    have hne : ¬(pyStrip line = "") := by
      intro hE
      rw [hE] at hsplit
      have h0 : splitWs "" = ([] : List String) := by decide
      rw [h0] at hsplit
      exact List.noConfusion hsplit
    simp only [hne, if_false, hsplit, hlk, hns, if_neg]
  · intro line tok args st hsplit htok
    refine ⟨?_, rfl⟩
    unfold handle_line
    have hne : ¬(pyStrip line = "") := by
      intro hE
      rw [hE] at hsplit
      have h0 : splitWs "" = ([] : List String) := by decide
      rw [h0] at hsplit
      exact List.noConfusion hsplit
    have hlk : lookupCmd builtin_commands "shutdown" = some Cmd.shutdown := by decide
    simp only [hne, if_false, hsplit, htok, hlk, if_pos]

/-- C5 witness: `"WhoAmI  now"` reaches the `whoami` handler with argument
list `["now"]`. -/
theorem c5_witness :
    handle_line "WhoAmI  now" (mkSt defaultConfig (some ⟨"bob", false⟩) []) =
      Res.ok true (cmd_whoami (mkSt defaultConfig (some ⟨"bob", false⟩) [])) := by
  have h := c5_dispatch_registered.1 "WhoAmI  now" "WhoAmI" ["now"] Cmd.whoami
    (mkSt defaultConfig (some ⟨"bob", false⟩) [])
    (by decide) (by decide) (by decide)
  rw [h]
  rfl

/-- C6: dispatching a line that strips to empty returns the continue value
with no observable effect at all; dispatching a line whose first token is not
a registered name returns the continue value, prints exactly the
unknown-command message, and runs no handler — in both cases the result is a
normal return, never an exception. -/
theorem c6_blank_and_unknown :
    (∀ (line : String) (st : St), pyStrip line = "" →
      handle_line line st = Res.ok true st) ∧
    (∀ (line tok : String) (args : List String) (st : St),
      splitWs (pyStrip line) = tok :: args →
      lookupCmd builtin_commands (pyLower tok) = none →
      handle_line line st = Res.ok true (emit ("Unknown command: " ++ pyLower tok) st)) := by
  constructor
  · intro line st hE
    unfold handle_line
    simp only [hE, if_pos]
  · intro line tok args st hsplit hlk
    unfold handle_line
    have hne : ¬(pyStrip line = "") := by
      intro hE
      rw [hE] at hsplit
      have h0 : splitWs "" = ([] : List String) := by decide
      rw [h0] at hsplit
      exact List.noConfusion hsplit
    simp only [hne, if_false, hsplit, hlk]

/-- C6 witness: a whitespace-only line and an unknown command, concretely. -/
theorem c6_witness :
    handle_line "   " (mkSt defaultConfig none []) =
      Res.ok true (mkSt defaultConfig none []) ∧
    handle_line "unknowncmd" (mkSt defaultConfig none []) =
      Res.ok true
        (emit "Unknown command: unknowncmd" (mkSt defaultConfig none [])) :=
  ⟨c6_blank_and_unknown.1 "   " (mkSt defaultConfig none []) (by decide),
   c6_blank_and_unknown.2 "unknowncmd" "unknowncmd" [] (mkSt defaultConfig none [])
     (by decide) (by decide)⟩

/-- C7: logging in under a username that strips-and-folds to `admin`: a code
that strips to anything other than the configured admin code produces no
user, leaves `current_user` untouched, increments the failed-login counter by
exactly one and appends one `failed_login` entry (under the typed username);
the correct code produces and installs `User("admin", is_admin = true)` and
logs `admin_login`. -/
theorem c7_admin_login {st : St} {u c : String} {rest : List Ev}
    (hev : st.events = Ev.line u :: Ev.line c :: rest)
    (hadmin : pyLower (strOr (pyStrip u) "guest") = "admin") :
    (pyStrip c ≠ st.cfg.admin_code →
      login st = some (none,
        { st with
          events := rest
          failed_logins := st.failed_logins + 1
          sec_logs := st.sec_logs ++
            [⟨toString st.clock, strOr (pyStrip u) "guest", "failed_login"⟩]
          clock := st.clock + 1
          output := st.output ++
            [ "Login to SimpOs"
            , "Invalid admin code."
            , "[SECURITY] Failed login attempts: " ++ toString (st.failed_logins + 1) ] })) ∧
    (pyStrip c = st.cfg.admin_code →
      login st = some (some ⟨"admin", true⟩,
        { st with
          events := rest
          user := some ⟨"admin", true⟩
          sec_logs := st.sec_logs ++ [⟨toString st.clock, "admin", "admin_login"⟩]
          clock := st.clock + 1
          output := st.output ++ ["Login to SimpOs"] })) := by
  obtain ⟨cfg, file, fl, logs, usr, ai, clk, up, git, fsf, apps, evs, out⟩ := st
  simp only at hev
  subst hev
  constructor
  · intro hcode
    simp only at hcode
    simp [login, readLine, emit, record_failed_login, sec_log, hadmin, hcode]
  · intro hcode
    simp only at hcode
    simp [login, readLine, emit, sec_log, hadmin, hcode]

/-- C7 witness: a wrong then a correct admin code against the default
configuration. -/
theorem c7_witness :
    login (mkSt defaultConfig none [.line "Admin", .line "wrong"]) = some (none,
      { mkSt defaultConfig none [.line "Admin", .line "wrong"] with
        events := []
        failed_logins := 1
        sec_logs := [⟨"0", "Admin", "failed_login"⟩]
        clock := 1
        output :=
          [ "Login to SimpOs"
          , "Invalid admin code."
          , "[SECURITY] Failed login attempts: 1" ] }) ∧
    login (mkSt defaultConfig none [.line "ADMIN", .line " changeme-admin "]) =
      some (some ⟨"admin", true⟩,
      { mkSt defaultConfig none [.line "ADMIN", .line " changeme-admin "] with
        events := []
        user := some ⟨"admin", true⟩
        sec_logs := [⟨"0", "admin", "admin_login"⟩]
        clock := 1
        output := ["Login to SimpOs"] }) :=
  ⟨(@c7_admin_login (mkSt defaultConfig none [.line "Admin", .line "wrong"])
      "Admin" "wrong" [] rfl (by decide)).1 (by decide),
   (@c7_admin_login (mkSt defaultConfig none [.line "ADMIN", .line " changeme-admin "])
      "ADMIN" " changeme-admin " [] rfl (by decide)).2 (by decide)⟩

/-- C10: a username that strips to the empty string is silently replaced by
`guest`; login succeeds at once as a non-admin user, consuming only the
username event — no code is ever prompted for and nothing is rejected or
retried. -/
theorem c10_blank_username_guest {st : St} {u : String} {rest : List Ev}
    (hev : st.events = Ev.line u :: rest)
    (hblank : pyStrip u = "") :
    login st = some (some ⟨"guest", false⟩,
      { st with
        events := rest
        user := some ⟨"guest", false⟩
        sec_logs := st.sec_logs ++ [⟨toString st.clock, "guest", "user_login"⟩]
        clock := st.clock + 1
        output := st.output ++ ["Login to SimpOs"] }) := by
  obtain ⟨cfg, file, fl, logs, usr, ai, clk, up, git, fsf, apps, evs, out⟩ := st
  simp only at hev
  subst hev
  simp [login, readLine, emit, sec_log, hblank, strOr,
    (show pyLower "guest" ≠ "admin" by decide)]

/-- C10 witness: a whitespace-only username logs in as `guest` immediately,
leaving the second scripted line unconsumed. -/
theorem c10_witness :
    login (mkSt defaultConfig none [.line "   ", .line "leftover"]) =
      some (some ⟨"guest", false⟩,
      { mkSt defaultConfig none [.line "   ", .line "leftover"] with
        events := [.line "leftover"]
        user := some ⟨"guest", false⟩
        sec_logs := [⟨"0", "guest", "user_login"⟩]
        clock := 1
        output := ["Login to SimpOs"] }) :=
  @c10_blank_username_guest
    (mkSt defaultConfig none [.line "   ", .line "leftover"])
    "   " [.line "leftover"] rfl (by decide)

/-- C2: `set_mode "online"` succeeds exactly when `allow_online_ai` is set
and `api_key` is a non-empty string.  When the gate fails it prints the
refusal and returns a state differing from the input only in the transcript —
`ai_mode` in the record and the file on disk are untouched; when it holds it
switches, persists and reports.  Asking while `ai_mode` is `online` with the
gate failing prints the access-denied line and changes nothing else — never a
silent no-op. -/
theorem c2_online_mode_gate {st : St} :
    ((st.cfg.allow_online_ai && optTruthy st.cfg.api_key) = false →
      set_mode "online" st =
        emit "Online mode not available. Admin must enable it and set API key." st) ∧
    ((st.cfg.allow_online_ai && optTruthy st.cfg.api_key) = true →
      set_mode "online" st =
        { st with
          cfg := { st.cfg with ai_mode := "online" }
          file := save_config { st.cfg with ai_mode := "online" }
          aiStatus := { st.aiStatus with
            mode := "online"
            last_action := some "Switched mode to online" }
          output := st.output ++ ["SimpAI mode set to online."] }) ∧
    (∀ q : String, st.cfg.ai_mode = "online" →
      (st.cfg.allow_online_ai && optTruthy st.cfg.api_key) = false →
      ask q st =
        emit "ACCESS DENIED â€“ ADMIN CODE REQUIRED or API key missing." st) := by
  refine ⟨fun hgate => ?_, fun hgate => ?_, fun q hmode hgate => ?_⟩
  · rw [Bool.and_eq_false_iff] at hgate
    unfold set_mode
    rw [if_neg (by simp), if_pos ⟨rfl, by
      rcases hgate with h | h <;> simp [h]⟩]
  · rw [Bool.and_eq_true] at hgate
    unfold set_mode
    rw [if_neg (by simp), if_neg (by simp [hgate.1, hgate.2]), emit]
    rfl
  · rw [Bool.and_eq_false_iff] at hgate
    unfold ask handle_online
    rw [if_pos hmode, if_pos (by
      rcases hgate with h | h <;> simp [h])]

/-- A configuration with the online-AI gate satisfied. -/
def cfgOnlineOk : SimpConfig :=
  { defaultConfig with allow_online_ai := true, api_key := some "k" }

/-- The record `cfgOnlineOk` after `set_mode "online"` switches the mode. -/
def cfgOnlineOn : SimpConfig := { cfgOnlineOk with ai_mode := "online" }

/-- A configuration whose stored mode is `online` while the gate fails. -/
def cfgForcedOnline : SimpConfig := { defaultConfig with ai_mode := "online" }

/-- C2 witness: the default configuration refuses the switch; a configured
flag and key allow it; asking in a forced-online state with the gate failing
is denied aloud. -/
theorem c2_witness :
    set_mode "online" (mkSt defaultConfig none []) =
      emit "Online mode not available. Admin must enable it and set API key."
        (mkSt defaultConfig none []) ∧
    set_mode "online" (mkSt cfgOnlineOk none []) =
      { mkSt cfgOnlineOk none [] with
        cfg := cfgOnlineOn
        file := save_config cfgOnlineOn
        aiStatus := { mode := "online", last_action := some "Switched mode to online",
                      online_available := true }
        output := ["SimpAI mode set to online."] } ∧
    ask "hello" (mkSt cfgForcedOnline none []) =
      emit "ACCESS DENIED â€“ ADMIN CODE REQUIRED or API key missing."
        (mkSt cfgForcedOnline none []) :=
  ⟨(@c2_online_mode_gate (mkSt defaultConfig none [])).1 (by decide),
   (@c2_online_mode_gate (mkSt cfgOnlineOk none [])).2.1 (by decide),
   (@c2_online_mode_gate (mkSt cfgForcedOnline none [])).2.2 "hello"
      (by decide) (by decide)⟩

/-- C8: saving any configuration and loading it back restores it
field-for-field and leaves the file as saved; loading a missing or corrupt
file yields the documented defaults and rewrites the file with them, as a
total function — nothing is raised to the caller. -/
theorem c8_save_load_roundtrip :
    (∀ c : SimpConfig, load_config (save_config c) = (c, save_config c)) ∧
    load_config ConfigFile.missing = (defaultConfig, save_config defaultConfig) ∧
    load_config ConfigFile.corrupt = (defaultConfig, save_config defaultConfig) :=
  ⟨config_roundtrip, rfl, rfl⟩

/-- Lemma: `require_admin` denies whenever there is no admin session. -/
theorem require_admin_denied {st : St}
    (h : ∀ u, st.user = some u → u.is_admin = false) :
    require_admin st = (false, emit "ACCESS DENIED – ADMIN CODE REQUIRED" st) := by
  unfold require_admin
  cases hu : st.user with
  | none => rfl
  | some u =>
    have := h u hu
    simp [this]

/-- Compute `readLine` when the head event is known. -/
theorem readLine_cons {t : St} {s : String} {r : List Ev}
    (h : t.events = Ev.line s :: r) :
    readLine t = some (s, { t with events := r }) := by
  unfold readLine
  rw [h]

/-- A session in which a plain (non-admin) user runs the `reset` command and
supplies the correct admin code and the literal confirmation token. -/
def stResetCE : St :=
  mkSt defaultConfig (some ⟨"alice", false⟩)
    [.line "changeme-admin", .line "RESET"]

/-- C1 counterexample: the `reset` command, run with no admin session
(current user `alice`, `is_admin = false`), never prints the access-denied
message and deletes the persisted configuration file — an admin-gated command
mutating state under a non-admin user, against the claim. -/
theorem c1_counterexample :
    stResetCE.user = some ⟨"alice", false⟩ ∧
    stResetCE.file ≠ ConfigFile.missing ∧
    runCmd Cmd.reset [] stResetCE =
      Res.ok () { stResetCE with
        file := ConfigFile.missing
        events := []
        output :=
          [ "Admin verification required for factory reset."
          , "This will delete SimpOs configuration (simp_config.json)."
          , "Factory reset complete. Restart SimpOs to run first-time setup again." ] } ∧
    ("ACCESS DENIED – ADMIN CODE REQUIRED" ∈
      ([ "Admin verification required for factory reset."
       , "This will delete SimpOs configuration (simp_config.json)."
       , "Factory reset complete. Restart SimpOs to run first-time setup again." ] :
        List String)) = False := by
  refine ⟨rfl, by decide, by decide, by simp⟩

/-- C1 (amended): the `admin` command and the settings update sub-action,
invoked with no current user or a non-admin current user, print the
access-denied message and mutate nothing (configuration record, file,
security log and session are all untouched).  The `reset` command and the
settings factory-reset sub-action never consult the session user: they gate
only on re-entry of the admin code plus the `RESET` token, aborting with zero
mutation on a wrong code or wrong token — but (per the counterexample) they
proceed for any session that supplies both. -/
theorem c1_admin_gating {st : St}
    (huser : ∀ u, st.user = some u → u.is_admin = false) :
    cmd_admin st = some (emit "ACCESS DENIED – ADMIN CODE REQUIRED" st) ∧
    (∀ choice rest, st.events = Ev.line choice :: rest → pyStrip choice = "3" →
      cmd_settings st = some (emit "ACCESS DENIED – ADMIN CODE REQUIRED"
        { st with events := rest, output := st.output ++ settingsMenuLines })) ∧
    (∀ choice rest, st.events = Ev.line choice :: rest → pyStrip choice = "4" →
      cmd_settings st =
        settings_reset { st with events := rest, output := st.output ++ settingsMenuLines }) ∧
    (∀ args, runCmd Cmd.reset args st = Res.ofOpt (settings_reset st)) ∧
    (∀ code rest, st.events = Ev.line code :: rest →
      pyStrip code ≠ st.cfg.admin_code →
      settings_reset st = some
        { st with
          events := rest
          output := st.output ++
            [ "Admin verification required for factory reset."
            , "Invalid admin code. Reset aborted." ] }) ∧
    (∀ code confirm rest, st.events = Ev.line code :: Ev.line confirm :: rest →
      pyStrip code = st.cfg.admin_code → pyStrip confirm ≠ "RESET" →
      settings_reset st = some
        { st with
          events := rest
          output := st.output ++
            [ "Admin verification required for factory reset."
            , "This will delete SimpOs configuration (simp_config.json)."
            , "Reset cancelled." ] }) := by
  refine ⟨?_, ?_, ?_, fun args => rfl, ?_, ?_⟩
  · unfold cmd_admin
    rw [require_admin_denied huser]
  · intro choice rest hev hch
    unfold cmd_settings
    simp only []
    rw [readLine_cons (t := emits settingsMenuLines st) (by simpa using hev)]
    simp only [hch]
    rw [if_pos trivial]
    unfold settings_update
    rw [require_admin_denied (by simpa using huser)]
    simp [emits, emit]
  · intro choice rest hev hch
    unfold cmd_settings
    simp only []
    rw [readLine_cons (t := emits settingsMenuLines st) (by simpa using hev)]
    simp only [hch]
    rw [if_pos trivial]
    simp [emits, emit]
  · intro code rest hev hcode
    unfold settings_reset
    simp only []
    rw [readLine_cons (t := emit "Admin verification required for factory reset." st)
      (by simpa using hev)]
    simp only []
    rw [if_pos (by simpa using hcode)]
    simp [emits, emit]
  · intro code confirm rest hev hcode hconf
    unfold settings_reset
    simp only []
    rw [readLine_cons (t := emit "Admin verification required for factory reset." st)
      (by simpa using hev)]
    simp only []
    rw [if_neg (by simpa using hcode)]
    rw [readLine_cons (s := confirm) (r := rest) (by simp)]
    simp [emit, hconf]

/-- C1 witness: denial of `admin` and of the settings update sub-action for
the non-admin user `alice`, and the zero-mutation aborts of `reset` on a
wrong code and on a wrong confirmation token. -/
theorem c1_witness :
    cmd_admin (mkSt defaultConfig (some ⟨"alice", false⟩) []) =
      some (emit "ACCESS DENIED – ADMIN CODE REQUIRED"
        (mkSt defaultConfig (some ⟨"alice", false⟩) [])) ∧
    cmd_settings (mkSt defaultConfig (some ⟨"alice", false⟩) [.line "3"]) =
      some (emit "ACCESS DENIED – ADMIN CODE REQUIRED"
        { mkSt defaultConfig (some ⟨"alice", false⟩) [.line "3"] with
          events := []
          output := settingsMenuLines }) ∧
    settings_reset (mkSt defaultConfig (some ⟨"alice", false⟩) [.line "nope"]) =
      some
        { mkSt defaultConfig (some ⟨"alice", false⟩) [.line "nope"] with
          events := []
          output :=
            [ "Admin verification required for factory reset."
            , "Invalid admin code. Reset aborted." ] } ∧
    settings_reset
        (mkSt defaultConfig (some ⟨"alice", false⟩)
          [.line "changeme-admin", .line "no"]) =
      some
        { mkSt defaultConfig (some ⟨"alice", false⟩)
            [.line "changeme-admin", .line "no"] with
          events := []
          output :=
            [ "Admin verification required for factory reset."
            , "This will delete SimpOs configuration (simp_config.json)."
            , "Reset cancelled." ] } :=
  ⟨(@c1_admin_gating (mkSt defaultConfig (some ⟨"alice", false⟩) [])
      (by intro u hu; cases hu; rfl)).1,
   (@c1_admin_gating (mkSt defaultConfig (some ⟨"alice", false⟩) [.line "3"])
      (by intro u hu; cases hu; rfl)).2.1 "3" [] rfl (by decide),
   (@c1_admin_gating (mkSt defaultConfig (some ⟨"alice", false⟩) [.line "nope"])
      (by intro u hu; cases hu; rfl)).2.2.2.2.1 "nope" [] rfl (by decide),
   (@c1_admin_gating
      (mkSt defaultConfig (some ⟨"alice", false⟩)
        [.line "changeme-admin", .line "no"])
      (by intro u hu; cases hu; rfl)).2.2.2.2.2 "changeme-admin" "no" [] rfl
      (by decide) (by decide)⟩

/-- The state after a first-run setup whose first code/confirmation pair
matches: owner name (default `owner` if blank), admin code (blank keeps the
configured one) and the completed flag are set and persisted, and the two
setup banners are printed. -/
def setupResult (st : St) (owner0 code : String) (rest : List Ev) : St :=
  let cfg := { st.cfg with
    admin_code := strOr (pyStrip code) st.cfg.admin_code
    owner_name := some (strOr (pyStrip owner0) "owner")
    first_run_completed := true }
  { st with
    cfg := cfg
    file := save_config cfg
    events := rest
    output := st.output ++
      [ "=== First time setup ==="
      , "Setup complete. You can change settings later via 'admin' and 'settings'." ] }

/-- C9: first-run setup runs only when the persisted flag is false; a
code/confirmation pair that differs just prints the retry line and repeats
the prompt; a matching pair persists the owner name (default `owner`), the
admin code (blank keeps the existing one) and `first_run_completed = true`,
so that running setup again on the resulting state is a no-op. -/
theorem c9_first_run_setup :
    (∀ st : St, st.cfg.first_run_completed = true →
      first_run_setup_if_needed st = some st) ∧
    (∀ (cur : String) (st : St) (c0 conf : String) (rest : List Ev),
      st.events = Ev.line c0 :: Ev.line conf :: rest →
      strOr (pyStrip c0) cur ≠ pyStrip conf →
      codeLoop cur st = codeLoop cur
        { st with
          events := rest
          output := st.output ++ ["Codes do not match, try again."] }) ∧
    (∀ (st : St) (owner0 c0 conf enter : String) (rest : List Ev),
      st.cfg.first_run_completed = false →
      st.events = Ev.line owner0 :: Ev.line c0 :: Ev.line conf :: Ev.line enter :: rest →
      strOr (pyStrip c0) st.cfg.admin_code = pyStrip conf →
      first_run_setup_if_needed st = some (setupResult st owner0 c0 rest) ∧
      (setupResult st owner0 c0 rest).cfg.admin_code =
        strOr (pyStrip c0) st.cfg.admin_code ∧
      (setupResult st owner0 c0 rest).cfg.owner_name =
        some (strOr (pyStrip owner0) "owner") ∧
      (setupResult st owner0 c0 rest).cfg.first_run_completed = true ∧
      (setupResult st owner0 c0 rest).file =
        save_config (setupResult st owner0 c0 rest).cfg ∧
      first_run_setup_if_needed (setupResult st owner0 c0 rest) =
        some (setupResult st owner0 c0 rest)) := by
  have hnoop : ∀ st : St, st.cfg.first_run_completed = true →
      first_run_setup_if_needed st = some st := by
    intro st h
    unfold first_run_setup_if_needed
    rw [if_pos h]
  refine ⟨hnoop, ?_, ?_⟩
  · intro cur st c0 conf rest hev hneq
    obtain ⟨cfg, file, fl, logs, usr, ai, clk, up, git, fsf, apps, evs, out⟩ := st
    simp only at hev
    subst hev
    conv_lhs => rw [codeLoop]
    simp [readLine, hneq, emit]
  · intro st owner0 c0 conf enter rest hflag hev hmatch
    refine ⟨?_, rfl, rfl, rfl, rfl, hnoop _ rfl⟩
    obtain ⟨cfg, file, fl, logs, usr, ai, clk, up, git, fsf, apps, evs, out⟩ := st
    simp only at hev hflag hmatch
    subst hev
    unfold first_run_setup_if_needed
    rw [if_neg (by simp [hflag])]
    simp only [readLine, emit]
    conv_lhs => rw [codeLoop]
    simp [readLine, emit, hmatch, setupResult, save_config]

/-- C9 witness: a completed flag skips setup; a mismatched pair loops with
the retry line; a matching pair persists owner, code and flag, after which
setup is a no-op. -/
theorem c9_witness :
    first_run_setup_if_needed
        (mkSt { defaultConfig with first_run_completed := true } none []) =
      some (mkSt { defaultConfig with first_run_completed := true } none []) ∧
    codeLoop "changeme-admin"
        (mkSt defaultConfig none [.line "pw1", .line "pw2", .line "x", .line "x"]) =
      codeLoop "changeme-admin"
        { mkSt defaultConfig none [.line "pw1", .line "pw2", .line "x", .line "x"] with
          events := [.line "x", .line "x"]
          output := ["Codes do not match, try again."] } ∧
    first_run_setup_if_needed
        (mkSt defaultConfig none
          [.line " Ann ", .line "pw", .line "pw", .line "", .line "later"]) =
      some (setupResult
        (mkSt defaultConfig none
          [.line " Ann ", .line "pw", .line "pw", .line "", .line "later"])
        " Ann " "pw" [.line "later"]) ∧
    first_run_setup_if_needed (setupResult
        (mkSt defaultConfig none
          [.line " Ann ", .line "pw", .line "pw", .line "", .line "later"])
        " Ann " "pw" [.line "later"]) =
      some (setupResult
        (mkSt defaultConfig none
          [.line " Ann ", .line "pw", .line "pw", .line "", .line "later"])
        " Ann " "pw" [.line "later"]) :=
  ⟨c9_first_run_setup.1 _ rfl,
   c9_first_run_setup.2.1 "changeme-admin" _ "pw1" "pw2" [.line "x", .line "x"]
     rfl (by decide),
   (c9_first_run_setup.2.2
     (mkSt defaultConfig none
       [.line " Ann ", .line "pw", .line "pw", .line "", .line "later"])
     " Ann " "pw" "pw" "" [.line "later"] rfl rfl (by decide)).1,
   (c9_first_run_setup.2.2
     (mkSt defaultConfig none
       [.line " Ann ", .line "pw", .line "pw", .line "", .line "later"])
     " Ann " "pw" "pw" "" [.line "later"] rfl rfl (by decide)).2.2.2.2.2⟩

/-! ## C3: the session user is rebuilt from scratch by every boot cycle

The lemmas below show that every phase of `_boot_once` up to and including
the login loop is insensitive to the `current_user` left over in the
`AuthManager` from before a reboot, so the whole boot driver behaves as if
that user were discarded at the moment the reboot signal is caught. -/

theorem boot_sequence_user (cfg : SimpConfig) (file : ConfigFile) (fl : Nat)
    (logs : List SecurityLogEntry) (ai : AiStatus) (clk : Nat) (up : String)
    (git fsf : Bool) (ap : List String) (ev : List Ev) (ot : List String)
    (u1 u2 : Option User) :
    boot_sequence ⟨cfg, file, fl, logs, u1, ai, clk, up, git, fsf, ap, ev, ot⟩ =
      (boot_sequence ⟨cfg, file, fl, logs, u2, ai, clk, up, git, fsf, ap, ev, ot⟩).map
        (fun s => { s with user := u1 }) := by
  cases ev with
  | nil => simp [boot_sequence, readLine, emits]
  | cons e rest => cases e <;> simp [boot_sequence, readLine, emits]

theorem codeLoop_user_aux :
    ∀ (n : Nat) (cur : String) (cfg : SimpConfig) (file : ConfigFile) (fl : Nat)
      (logs : List SecurityLogEntry) (ai : AiStatus) (clk : Nat) (up : String)
      (git fsf : Bool) (ap : List String) (ev : List Ev) (ot : List String)
      (u1 u2 : Option User),
      ev.length ≤ n →
      codeLoop cur ⟨cfg, file, fl, logs, u1, ai, clk, up, git, fsf, ap, ev, ot⟩ =
        (codeLoop cur ⟨cfg, file, fl, logs, u2, ai, clk, up, git, fsf, ap, ev, ot⟩).map
          (fun p => (p.1, { p.2 with user := u1 })) := by
  intro n
  induction n with
  | zero =>
    intro cur cfg file fl logs ai clk up git fsf ap ev ot u1 u2 hle
    have hnil : ev = [] := by
      cases ev with
      | nil => rfl
      | cons e r => simp at hle
    subst hnil
    simp [codeLoop, readLine]
  | succ n ih =>
    intro cur cfg file fl logs ai clk up git fsf ap ev ot u1 u2 hle
    cases ev with
    | nil => simp [codeLoop, readLine]
    | cons e rest =>
      cases e with
      | menu c => simp [codeLoop, readLine]
      | proc b => simp [codeLoop, readLine]
      | procOut r => simp [codeLoop, readLine]
      | line c0 =>
        cases rest with
        | nil => simp [codeLoop, readLine]
        | cons e2 rest2 =>
          cases e2 with
          | menu c => simp [codeLoop, readLine]
          | proc b => simp [codeLoop, readLine]
          | procOut r => simp [codeLoop, readLine]
          | line conf =>
            conv_lhs => rw [codeLoop]
            conv_rhs => rw [codeLoop]
            simp only [readLine]
            by_cases hc : strOr (pyStrip c0) cur = pyStrip conf
            · simp [hc, emit]
            · have hrec := ih cur cfg file fl logs ai clk up git fsf ap rest2
                (ot ++ ["Codes do not match, try again."]) u1 u2
                (by simp at hle ⊢; omega)
              simpa [hc, emit] using hrec

theorem first_run_setup_user (cfg : SimpConfig) (file : ConfigFile) (fl : Nat)
    (logs : List SecurityLogEntry) (ai : AiStatus) (clk : Nat) (up : String)
    (git fsf : Bool) (ap : List String) (ev : List Ev) (ot : List String)
    (u1 u2 : Option User) :
    first_run_setup_if_needed ⟨cfg, file, fl, logs, u1, ai, clk, up, git, fsf, ap, ev, ot⟩ =
      (first_run_setup_if_needed
          ⟨cfg, file, fl, logs, u2, ai, clk, up, git, fsf, ap, ev, ot⟩).map
        (fun s => { s with user := u1 }) := by
  unfold first_run_setup_if_needed
  by_cases hf : cfg.first_run_completed = true
  · simp [hf]
  · simp only [show (⟨cfg, file, fl, logs, u1, ai, clk, up, git, fsf, ap, ev, ot⟩ : St).cfg
        = cfg from rfl,
      show (⟨cfg, file, fl, logs, u2, ai, clk, up, git, fsf, ap, ev, ot⟩ : St).cfg
        = cfg from rfl, hf, if_false]
    cases ev with
    | nil => simp [readLine, emit]
    | cons e rest =>
      cases e with
      | menu c => simp [readLine, emit]
      | proc b => simp [readLine, emit]
      | procOut r => simp [readLine, emit]
      | line owner0 =>
        simp only [readLine, emit]
        rw [codeLoop_user_aux rest.length cfg.admin_code cfg file fl logs ai clk up
          git fsf ap rest (ot ++ ["=== First time setup ==="]) u1 u2 le_rfl]
        cases h2 : codeLoop cfg.admin_code
            ⟨cfg, file, fl, logs, u2, ai, clk, up, git, fsf, ap, rest,
              ot ++ ["=== First time setup ==="]⟩ with
        | none => rfl
        | some q =>
          obtain ⟨code, st2⟩ := q
          obtain ⟨cfg2, file2, fl2, logs2, usr2, ai2, clk2, up2, git2, fsf2, ap2, ev2, ot2⟩ := st2
          cases ev2 with
          | nil => simp [readLine, emit]
          | cons e3 rest3 => cases e3 <;> simp [readLine, emit]

theorem login_user (cfg : SimpConfig) (file : ConfigFile) (fl : Nat)
    (logs : List SecurityLogEntry) (ai : AiStatus) (clk : Nat) (up : String)
    (git fsf : Bool) (ap : List String) (ev : List Ev) (ot : List String)
    (u1 u2 : Option User) :
    login ⟨cfg, file, fl, logs, u1, ai, clk, up, git, fsf, ap, ev, ot⟩ =
      (login ⟨cfg, file, fl, logs, u2, ai, clk, up, git, fsf, ap, ev, ot⟩).map
        (fun p =>
          match p with
          | (none, s) => (none, { s with user := u1 })
          | (some v, s) => (some v, s)) := by
  unfold login
  cases ev with
  | nil => simp [readLine, emit]
  | cons e rest =>
    cases e with
    | menu c => simp [readLine, emit]
    | proc b => simp [readLine, emit]
    | procOut r => simp [readLine, emit]
    | line u0 =>
      simp only [readLine, emit]
      by_cases ha : (pyLower (strOr (pyStrip u0) "guest") == "admin") = true
      · simp only [ha, if_true]
        cases rest with
        | nil => simp [readLine]
        | cons e2 rest2 =>
          cases e2 with
          | menu c => simp [readLine]
          | proc b => simp [readLine]
          | procOut r => simp [readLine]
          | line code =>
            simp only [readLine]
            by_cases hc : pyStrip code = cfg.admin_code
            · simp [hc, sec_log]
            · simp [hc, record_failed_login, sec_log, emit]
      · simp only [Bool.not_eq_true] at ha
        simp [ha, sec_log]

theorem loginLoop_user_aux :
    ∀ (n : Nat) (cfg : SimpConfig) (file : ConfigFile) (fl : Nat)
      (logs : List SecurityLogEntry) (ai : AiStatus) (clk : Nat) (up : String)
      (git fsf : Bool) (ap : List String) (ev : List Ev) (ot : List String)
      (u1 u2 : Option User),
      ev.length ≤ n →
      loginLoop ⟨cfg, file, fl, logs, u1, ai, clk, up, git, fsf, ap, ev, ot⟩ =
        loginLoop ⟨cfg, file, fl, logs, u2, ai, clk, up, git, fsf, ap, ev, ot⟩ := by
  intro n
  induction n with
  | zero =>
    intro cfg file fl logs ai clk up git fsf ap ev ot u1 u2 hle
    rw [loginLoop, loginLoop,
      login_user cfg file fl logs ai clk up git fsf ap ev ot u1 u2]
    cases h : login ⟨cfg, file, fl, logs, u2, ai, clk, up, git, fsf, ap, ev, ot⟩ with
    | none => rfl
    | some p =>
      have := login_lt h
      simp only [St.events] at this
      omega
  | succ n ih =>
    intro cfg file fl logs ai clk up git fsf ap ev ot u1 u2 hle
    conv_lhs => rw [loginLoop]
    conv_rhs => rw [loginLoop]
    rw [login_user cfg file fl logs ai clk up git fsf ap ev ot u1 u2]
    cases h : login ⟨cfg, file, fl, logs, u2, ai, clk, up, git, fsf, ap, ev, ot⟩ with
    | none => rfl
    | some p =>
      obtain ⟨r, s⟩ := p
      have hl := login_lt h
      simp only [St.events] at hl
      cases r with
      | some v => rfl
      | none =>
        simp only [Option.map_some']
        obtain ⟨cfg3, file3, fl3, logs3, usr3, ai3, clk3, up3, git3, fsf3, ap3, ev3, ot3⟩ := s
        exact ih cfg3 file3 fl3 logs3 ai3 clk3 up3 git3 fsf3 ap3 ev3 ot3 u1 usr3
          (by simp only [St.events] at hl ⊢; omega)

theorem boot_once_user (cfg : SimpConfig) (file : ConfigFile) (fl : Nat)
    (logs : List SecurityLogEntry) (ai : AiStatus) (clk : Nat) (up : String)
    (git fsf : Bool) (ap : List String) (ev : List Ev) (ot : List String)
    (u1 u2 : Option User) :
    boot_once ⟨cfg, file, fl, logs, u1, ai, clk, up, git, fsf, ap, ev, ot⟩ =
      boot_once ⟨cfg, file, fl, logs, u2, ai, clk, up, git, fsf, ap, ev, ot⟩ := by
  unfold boot_once
  simp only [clear_screen, show_logo, emit, emits]
  rw [first_run_setup_user cfg file fl logs ai clk up git fsf ap ev
    (ot ++ ["[clear_screen]"] ++ ["[logo]", "--- v0.1 Alpha ---", ""]) u1 u2]
  cases h1 : first_run_setup_if_needed
      ⟨cfg, file, fl, logs, u2, ai, clk, up, git, fsf, ap, ev,
        ot ++ ["[clear_screen]"] ++ ["[logo]", "--- v0.1 Alpha ---", ""]⟩ with
  | none => rfl
  | some s1 =>
    simp only [Option.map_some']
    obtain ⟨cfg1, file1, fl1, logs1, usr1, ai1, clk1, up1, git1, fsf1, ap1, ev1, ot1⟩ := s1
    rw [boot_sequence_user cfg1 file1 fl1 logs1 ai1 clk1 up1 git1 fsf1 ap1 ev1 ot1 u1 usr1]
    cases h2 : boot_sequence
        ⟨cfg1, file1, fl1, logs1, usr1, ai1, clk1, up1, git1, fsf1, ap1, ev1, ot1⟩ with
    | none => rfl
    | some s2 =>
      simp only [Option.map_some']
      obtain ⟨cfg2, file2, fl2, logs2, usr2, ai2, clk2, up2, git2, fsf2, ap2, ev2, ot2⟩ := s2
      rw [loginLoop_user_aux ev2.length cfg2 file2 fl2 logs2 ai2 clk2 up2 git2 fsf2
        ap2 ev2 ot2 u1 usr2 le_rfl]

theorem boot_user (cfg : SimpConfig) (file : ConfigFile) (fl : Nat)
    (logs : List SecurityLogEntry) (ai : AiStatus) (clk : Nat) (up : String)
    (git fsf : Bool) (ap : List String) (ev : List Ev) (ot : List String)
    (u1 u2 : Option User) :
    boot ⟨cfg, file, fl, logs, u1, ai, clk, up, git, fsf, ap, ev, ot⟩ =
      boot ⟨cfg, file, fl, logs, u2, ai, clk, up, git, fsf, ap, ev, ot⟩ := by
  have hbo := boot_once_user cfg file fl logs ai clk up git fsf ap ev ot u1 u2
  rw [boot, boot]
  cases hb1 : boot_once ⟨cfg, file, fl, logs, u1, ai, clk, up, git, fsf, ap, ev, ot⟩ with
  | ok a s =>
    cases hb2 : boot_once ⟨cfg, file, fl, logs, u2, ai, clk, up, git, fsf, ap, ev, ot⟩ with
    | ok a2 s2 =>
      rw [hb1, hb2] at hbo
      cases a
      cases a2
      simp only [Res.ok.injEq, true_and] at hbo
      subst hbo
      rfl
    | eof => rw [hb1, hb2] at hbo; exact Res.noConfusion hbo
    | reboot s2 => rw [hb1, hb2] at hbo; exact Res.noConfusion hbo
  | eof =>
    cases hb2 : boot_once ⟨cfg, file, fl, logs, u2, ai, clk, up, git, fsf, ap, ev, ot⟩ with
    | ok a2 s2 => rw [hb1, hb2] at hbo; exact Res.noConfusion hbo
    | eof => rfl
    | reboot s2 => rw [hb1, hb2] at hbo; exact Res.noConfusion hbo
  | reboot s =>
    cases hb2 : boot_once ⟨cfg, file, fl, logs, u2, ai, clk, up, git, fsf, ap, ev, ot⟩ with
    | ok a2 s2 => rw [hb1, hb2] at hbo; exact Res.noConfusion hbo
    | eof => rw [hb1, hb2] at hbo; exact Res.noConfusion hbo
    | reboot s2 =>
      rw [hb1, hb2] at hbo
      simp only [Res.reboot.injEq] at hbo
      subst hbo
      rfl

/-- C3: when the reboot signal unwinds to the top-level boot driver, the
driver re-enters the boot sequence in-process (it simply runs `boot` again on
the unwound state), and the continuation is indistinguishable from one in
which the pre-reboot authenticated user had been discarded: no `User` from
before the reboot is observable after it.  (The `AuthManager`'s user is then
rebuilt by the login phase against the configuration carried in the state.) -/
theorem c3_reboot_reenters_discarding_user :
    ∀ st : St, boot st =
      match boot_once st with
      | .ok a s => Res.ok a s
      | .eof => Res.eof
      | .reboot s => boot { s with user := none } := by
  intro st
  rw [boot]
  cases h : boot_once st with
  | ok a s => rfl
  | eof => rfl
  | reboot s =>
    obtain ⟨cfg, file, fl, logs, usr, ai, clk, up, git, fsf, ap, ev, ot⟩ := s
    exact boot_user cfg file fl logs ai clk up git fsf ap ev ot usr none

end SimpOs
